import Mathlib

/-!
# PCA9634 LED driver library: register-level model

Shallow embedding of `src/pca9634.cpp` / `src/pca9634.h`.

* `uint8_t` / `uint16_t` values are natural numbers; a conversion to `uint8_t`
  is an explicit `% 256`.
* The bitwise operators of the source are the bitwise operators of `Nat`.
  The source computes `x & ~m` on an `int`-promoted byte `x` with a mask
  `m ≤ 0xFF`; on bytes this is `x &&& (0xFF ^^^ m)`.
* The chip behind the `TwoWire` transport is a register file `regs` with a
  5-bit address space: a register write stores the byte that is sent, a
  register read returns the byte that is stored.
* Every call made on the transport (and `delayMicroseconds`) is appended to
  `log`, in the order the source issues it.
* `writes` is a history of the register writes: each entry carries the register
  file as it was when the write was issued.  No operation reads it.
* A finite `float` is the rational number it denotes.  Where the source rounds
  (`24.0 * period - 1.0`), the rounding is a parameter of the model.
-/

namespace Pca9634

/-! ## Constants (pca9634.cpp, lines 4-25) -/

/-- Enumerator `OFF` of `OutputDriverEffect`. -/
abbrev OFF : Nat := 0
/-- Enumerator `FULLY_ON` of `OutputDriverEffect`. -/
abbrev FULLY_ON : Nat := 1
/-- Enumerator `BRIGHTNESS_CONTROL` of `OutputDriverEffect`. -/
abbrev BRIGHTNESS_CONTROL : Nat := 2
/-- Enumerator `BRIGHTNESS_DIMMING_BLINKING_CONTROL` of `OutputDriverEffect`. -/
abbrev BRIGHTNESS_DIMMING_BLINKING_CONTROL : Nat := 3

abbrev CHANNELS : Nat := 8

abbrev DEFAULT_ALL_CALL_I2C_SLAVE_ADDRESS : Nat := 0xE0
abbrev DEFAULT_SWRST_I2C_SLAVE_ADDRESS : Nat := 0x03

abbrev REG_MODE1 : Nat := 0x00
abbrev REG_MODE2 : Nat := 0x01
abbrev REG_PWM0 : Nat := 0x02
abbrev REG_GRPPWM : Nat := 0x0A
abbrev REG_GRPFREQ : Nat := 0x0B
abbrev REG_LEDOUT0 : Nat := 0x0C
abbrev REG_SUBADR1 : Nat := 0x0E

abbrev REG_MODE1_MASK_SLEEP : Nat := 0x10
abbrev REG_MODE2_MASK_DMBLNK : Nat := 0x20

/-! ## Transport and chip state -/

/-- One call on the `TwoWire` transport or on the Arduino core. -/
inductive Call where
  | begin
  | beginTransmission (address : Nat)
  | write (byte : Nat)
  | endTransmission
  | requestFrom (address : Nat) (quantity : Nat)
  | read
  | delayMicroseconds (us : Nat)
  deriving DecidableEq, Repr

/-- A register write together with the register file at the moment it is issued. -/
structure RegWrite where
  reg : Nat
  value : Nat
  before : Nat → Nat

/-- The controller (`i2cSlaveAddr`), the register file of the chip it talks to,
and the history of what has been sent. -/
structure Chip where
  i2cSlaveAddr : Nat
  regs : Nat → Nat
  log : List Call
  writes : List RegWrite

/-- A chip on the default address whose registers all hold zero: every channel is `OFF`. -/
def blank : Chip :=
  { i2cSlaveAddr := DEFAULT_ALL_CALL_I2C_SLAVE_ADDRESS, regs := fun _ => 0, log := [], writes := [] }

/-- The bus traffic of one `readRegister` (pca9634.cpp, lines 256-260). -/
def readCalls (i2cSlaveAddr registerAddress : Nat) : List Call :=
  [Call.beginTransmission i2cSlaveAddr, Call.write (registerAddress % 256 &&& 0x1F),
   Call.endTransmission, Call.requestFrom i2cSlaveAddr 1, Call.read]

/-- The bus traffic of one `writeRegister` (pca9634.cpp, lines 264-267). -/
def writeCalls (i2cSlaveAddr registerAddress value : Nat) : List Call :=
  [Call.beginTransmission i2cSlaveAddr, Call.write (registerAddress % 256 &&& 0x1F),
   Call.write (value % 256), Call.endTransmission]

/-- `Pca9634::readRegister`: the byte returned and the state after the transfer. -/
def readRegister (registerAddress : Nat) (s : Chip) : Nat × Chip :=
  (s.regs (registerAddress % 256 &&& 0x1F) % 256,
   { s with log := s.log ++ readCalls s.i2cSlaveAddr registerAddress })

/-- `Pca9634::writeRegister`: both arguments are `uint8_t`. -/
def writeRegister (registerAddress value : Nat) (s : Chip) : Chip :=
  { s with
    regs := fun a => if a = (registerAddress % 256 &&& 0x1F) then value % 256 else s.regs a
    log := s.log ++ writeCalls s.i2cSlaveAddr registerAddress value
    writes := s.writes ++ [⟨registerAddress % 256 &&& 0x1F, value % 256, s.regs⟩] }

/-! ## Lifecycle, address and output configuration (pca9634.cpp, lines 51-187) -/

/-- Enumerators of `OutputChangeTrigger` (pca9634.h, lines 15-18). -/
abbrev STOP_COMMAND : Nat := 0
abbrev ACK : Nat := 1
/-- Enumerators of `OutputDriverStructure` (pca9634.h, lines 20-23). -/
abbrev OPEN_DRAIN : Nat := 0
abbrev TOTEM_POLE : Nat := 1
/-- Enumerators of `OutputWhenNotEnabled` (pca9634.h, lines 25-29). -/
abbrev ZERO : Nat := 0
abbrev ONE_OR_WEAK_HIGH : Nat := 1
abbrev HIGH_Z : Nat := 2

/-- `Pca9634::begin`. -/
def begin (s : Chip) : Chip :=
  { s with log := s.log ++ [Call.begin] }

/-- `Pca9634::reset`. `status` is what the transport's `endTransmission` returns. -/
def reset (status : Nat) (s : Chip) : Bool × Chip :=
  (status != 0,
   { s with log := s.log ++ [Call.beginTransmission DEFAULT_SWRST_I2C_SLAVE_ADDRESS,
                             Call.write 0xA5, Call.write 0x5A, Call.endTransmission] })

/-- `Pca9634::sleep`. -/
def sleep (s : Chip) : Chip :=
  let r := readRegister REG_MODE1 s
  let oldMode1 := r.1
  let newMode1 := oldMode1 ||| REG_MODE1_MASK_SLEEP
  writeRegister REG_MODE1 newMode1 r.2

/-- `Pca9634::wakeup`. -/
def wakeup (s : Chip) : Chip :=
  let r := readRegister REG_MODE1 s
  let oldMode1 := r.1
  let newMode1 := oldMode1 &&& (0xFF ^^^ REG_MODE1_MASK_SLEEP)
  let s1 := writeRegister REG_MODE1 newMode1 r.2
  { s1 with log := s1.log ++ [Call.delayMicroseconds 500] }

/-- `Pca9634::setAddressActive(index, addr, enabled)`. -/
def setAddressActive (index addr : Nat) (enabled : Bool) (s : Chip) : Chip :=
  let s1 := if enabled then writeRegister (REG_SUBADR1 + index) ((addr <<< 1) &&& 0xFF) s else s
  let r := readRegister REG_MODE1 s1
  let oldMode1 := r.1
  let enableBit := (0x08 >>> index) % 256
  let newMode1 := if enabled then oldMode1 ||| enableBit else oldMode1 &&& (0xFF ^^^ enableBit)
  writeRegister REG_MODE1 newMode1 r.2

/-- `Pca9634::setSubaddress1Active`. -/
def setSubaddress1Active (addr : Nat) (s : Chip) : Chip := setAddressActive 0 addr true s
/-- `Pca9634::setSubaddress2Active`. -/
def setSubaddress2Active (addr : Nat) (s : Chip) : Chip := setAddressActive 1 addr true s
/-- `Pca9634::setSubaddress3Active`. -/
def setSubaddress3Active (addr : Nat) (s : Chip) : Chip := setAddressActive 2 addr true s
/-- `Pca9634::setAllCallAddressActive`. -/
def setAllCallAddressActive (addr : Nat) (s : Chip) : Chip := setAddressActive 3 addr true s
/-- `Pca9634::setAllCallAddressInactive`. -/
def setAllCallAddressInactive (s : Chip) : Chip := setAddressActive 3 0 false s

/-- `Pca9634::configureOutputs(inverted, trigger, structure, output)`; the three
enumeration arguments are passed as their integer values (`structure_` is the
parameter `structure`). -/
def configureOutputs (inverted : Bool) (trigger structure_ output : Nat) (s : Chip) : Chip :=
  let r := readRegister REG_MODE2 s
  let oldMode2 := r.1
  let newMode2 := (oldMode2 &&& REG_MODE2_MASK_DMBLNK) ||| (inverted.toNat <<< 4)
                    ||| (trigger <<< 3) ||| (structure_ <<< 2) ||| output
  writeRegister REG_MODE2 newMode2 r.2

/-- `Pca9634::setGroupPwm`, from the cast on: `grppwm` is the `int` that
`(int)clamp(ratio * 256.0, 0.0, 255.0)` evaluates to (`groupPwmInt` below), converted
to `uint8_t`. -/
def setGroupPwm (grppwm : Nat) (s : Chip) : Chip :=
  writeRegister REG_GRPPWM grppwm s

/-- `Pca9634::configureDimmingEffect`, with the `int` computed from `ratio` (see
`setGroupPwm`) as its argument; `configureDimmingEffectFloat` below takes the ratio. -/
def configureDimmingEffect (grppwm : Nat) (s : Chip) : Chip :=
  let r := readRegister REG_MODE2 s
  let oldMode2 := r.1
  let newMode2 := oldMode2 &&& (0xFF ^^^ REG_MODE2_MASK_DMBLNK)
  let s1 := writeRegister REG_MODE2 newMode2 r.2
  setGroupPwm grppwm s1

/-- `Pca9634::configureBlinkingEffect`, with the `int` computed from `dutyCycle`
(see `setGroupPwm`) and the `int` that `(int)clamp(24.0 * period - 1.0, 0.0, 255.0)`
evaluates to (`groupFreqInt` below) as its arguments; `configureBlinkingEffectFloat`
below takes the period and the duty cycle. -/
def configureBlinkingEffect (grppwm grpfreq : Nat) (s : Chip) : Chip :=
  let r := readRegister REG_MODE2 s
  let oldMode2 := r.1
  let newMode2 := oldMode2 ||| REG_MODE2_MASK_DMBLNK
  let s1 := writeRegister REG_MODE2 newMode2 r.2
  let s2 := setGroupPwm grppwm s1
  writeRegister REG_GRPFREQ grpfreq s2

/-! ## Per-channel operations (pca9634.cpp, lines 204-253) -/

/-- `Pca9634::setBrightness(channel, value)`. -/
def setBrightness (channel value : Nat) (s : Chip) : Chip :=
  if channel ≥ CHANNELS then s
  else
    let ledoutRegisterAddress := REG_LEDOUT0 + channel / 4
    let ledoutBitShift := (channel &&& 0x03) <<< 1
    let r := readRegister ledoutRegisterAddress s
    let ledoutRegisterValue := r.1
    let oldLedoutValue := (ledoutRegisterValue >>> ledoutBitShift) &&& 0x03
    let maxValue := if oldLedoutValue = BRIGHTNESS_DIMMING_BLINKING_CONTROL then 0xFF else 0x100
    let clampedValue := if value > maxValue then maxValue else value
    let newLedoutValue :=
      if clampedValue = 0x100 then FULLY_ON
      else if oldLedoutValue = BRIGHTNESS_DIMMING_BLINKING_CONTROL then
        BRIGHTNESS_DIMMING_BLINKING_CONTROL
      else BRIGHTNESS_CONTROL
    let s1 :=
      if newLedoutValue ≠ oldLedoutValue then
        writeRegister ledoutRegisterAddress
          (ledoutRegisterValue &&& (0xFF ^^^ (0x03 <<< ledoutBitShift))
            ||| (newLedoutValue <<< ledoutBitShift)) r.2
      else r.2
    if newLedoutValue ≠ FULLY_ON then writeRegister (REG_PWM0 + channel) clampedValue s1
    else s1

/-- `Pca9634::setEffectEnabled(channel, enabled)`. -/
def setEffectEnabled (channel : Nat) (enabled : Bool) (s : Chip) : Chip :=
  if channel ≥ CHANNELS then s
  else
    let ledoutRegisterAddress := REG_LEDOUT0 + channel / 4
    let ledoutBitShift := (channel &&& 0x03) <<< 1
    let r := readRegister ledoutRegisterAddress s
    let ledoutRegisterValue := r.1
    let oldLedoutValue := (ledoutRegisterValue >>> ledoutBitShift) &&& 0x03
    if enabled then
      let s1 :=
        if oldLedoutValue = FULLY_ON then writeRegister (REG_PWM0 + channel) 0xFF r.2 else r.2
      if oldLedoutValue ≠ BRIGHTNESS_DIMMING_BLINKING_CONTROL then
        writeRegister ledoutRegisterAddress
          (ledoutRegisterValue &&& (0xFF ^^^ (0x03 <<< ledoutBitShift))
            ||| (BRIGHTNESS_DIMMING_BLINKING_CONTROL <<< ledoutBitShift)) s1
      else s1
    else if oldLedoutValue = BRIGHTNESS_DIMMING_BLINKING_CONTROL then
      writeRegister ledoutRegisterAddress
        (ledoutRegisterValue &&& (0xFF ^^^ (0x03 <<< ledoutBitShift))
          ||| (BRIGHTNESS_CONTROL <<< ledoutBitShift)) r.2
    else r.2

/-! ## The public operations as one type (pca9634.h, lines 37-54) -/

/-- A call of a public member function, with its arguments. -/
inductive Op where
  | begin
  | reset (status : Nat)
  | sleep
  | wakeup
  | setSubaddress1Active (addr : Nat)
  | setSubaddress2Active (addr : Nat)
  | setSubaddress3Active (addr : Nat)
  | setAllCallAddressActive (addr : Nat)
  | setAllCallAddressInactive
  | configureOutputs (inverted : Bool) (trigger structure_ output : Nat)
  | configureDimmingEffect (grppwm : Nat)
  | configureBlinkingEffect (grppwm grpfreq : Nat)
  | setBrightness (channel value : Nat)
  | setEffectEnabled (channel : Nat) (enabled : Bool)

/-- The state after a call of a public member function. -/
def run : Op → Chip → Chip
  | Op.begin, s => begin s
  | Op.reset status, s => (reset status s).2
  | Op.sleep, s => sleep s
  | Op.wakeup, s => wakeup s
  | Op.setSubaddress1Active addr, s => setSubaddress1Active addr s
  | Op.setSubaddress2Active addr, s => setSubaddress2Active addr s
  | Op.setSubaddress3Active addr, s => setSubaddress3Active addr s
  | Op.setAllCallAddressActive addr, s => setAllCallAddressActive addr s
  | Op.setAllCallAddressInactive, s => setAllCallAddressInactive s
  | Op.configureOutputs inverted trigger structure_ output, s =>
      configureOutputs inverted trigger structure_ output s
  | Op.configureDimmingEffect grppwm, s => configureDimmingEffect grppwm s
  | Op.configureBlinkingEffect grppwm grpfreq, s => configureBlinkingEffect grppwm grpfreq s
  | Op.setBrightness channel value, s => setBrightness channel value s
  | Op.setEffectEnabled channel enabled, s => setEffectEnabled channel enabled s

/-! ## Observations used by the statements -/

/-- The 2-bit field of `channel` in a LEDOUT byte, decoded as the source decodes it
(pca9634.cpp, lines 209 and 211). -/
def ledoutField (ledoutRegisterValue channel : Nat) : Nat :=
  (ledoutRegisterValue >>> ((channel &&& 0x03) <<< 1)) &&& 0x03

/-- The mode of `channel` in a register file: the field of the byte read from
`REG_LEDOUT0 + channel / 4` (pca9634.cpp, lines 208-211). -/
def ledoutMode (regs : Nat → Nat) (channel : Nat) : Nat :=
  ledoutField (regs (REG_LEDOUT0 + channel / 4) % 256) channel

/-- The register writes issued between an earlier state and a later one. -/
def writesSince (s t : Chip) : List RegWrite :=
  t.writes.drop s.writes.length

/-- The register writes issued between two states, as (register, byte) pairs. -/
def writePairs (s t : Chip) : List (Nat × Nat) :=
  (writesSince s t).map (fun w => (w.reg, w.value))

/-- The calls logged between an earlier state and a later one. -/
def callsSince (s t : Chip) : List Call :=
  t.log.drop s.log.length

/-- The byte the source builds to put mode `m` into the field of channel `c` of the
LEDOUT byte `r` (pca9634.cpp, lines 223, 248 and 251). -/
def insertField (r c m : Nat) : Nat :=
  r &&& (0xFF ^^^ (0x03 <<< ((c &&& 0x03) <<< 1))) ||| (m <<< ((c &&& 0x03) <<< 1))

/-- The state after the LEDOUT read that opens both channel operations. -/
def afterRead (c : Nat) (s : Chip) : Chip := (readRegister (REG_LEDOUT0 + c / 4) s).2

/-- The state after the field of channel `c` has been rewritten to `m`. -/
def putMode (c m : Nat) (s t : Chip) : Chip :=
  writeRegister (REG_LEDOUT0 + c / 4) (insertField (s.regs (REG_LEDOUT0 + c / 4) % 256) c m) t

/-- A chip on the default address whose channel 0 is `FULLY_ON` (LEDOUT0 = 0x01)
and whose other registers hold zero. -/
def fullyOn0 : Chip :=
  { i2cSlaveAddr := DEFAULT_ALL_CALL_I2C_SLAVE_ADDRESS,
    regs := fun a => if a = REG_LEDOUT0 then 0x01 else 0, log := [], writes := [] }

/-- A chip on the default address whose channel 0 is
`BRIGHTNESS_DIMMING_BLINKING_CONTROL` (LEDOUT0 = 0x03). -/
def dimBlink0 : Chip :=
  { i2cSlaveAddr := DEFAULT_ALL_CALL_I2C_SLAVE_ADDRESS,
    regs := fun a => if a = REG_LEDOUT0 then 0x03 else 0, log := [], writes := [] }

/-! ## The floating-point expressions (pca9634.cpp, lines 162-197)

A finite `float` or `double` is the rational number it denotes; comparisons are the
comparisons of these numbers.  NaN is not a value of the model (the source casts it to
`int`, which the language leaves undefined), and an infinity behaves in `clamp` as any
number beyond the bound does. -/

/-- `Pca9634::clamp(value, min, max)`. -/
def clamp (value min max : ℚ) : ℚ :=
  if value > max then max else if value < min then min else value

/-- The cast `(int)x` of a floating-point value: truncation toward zero. -/
def toInt (x : ℚ) : Int :=
  if 0 ≤ x then ⌊x⌋ else ⌈x⌉

/-- The conversion of an `int` argument to the `uint8_t` parameter of `writeRegister`. -/
def toUint8 (i : Int) : Nat :=
  (i % 256).toNat

/-- The `int` that `setGroupPwm(ratio)` passes on, `(int)clamp(ratio * 256.0, 0.0, 255.0)`
(pca9634.cpp, line 186).  The product scales a `float` by a power of two, which binary
floating point does without rounding, so the rational product is the value the source
computes. -/
def groupPwmInt (ratio : ℚ) : Int :=
  toInt (clamp (ratio * 256) 0 255)

/-- The `int` that `configureBlinkingEffect(period, _)` passes on,
`(int)clamp(24.0 * period - 1.0, 0.0, 255.0)` (pca9634.cpp, line 182).  The product and
the difference are computed in `double` and the result is converted to the `float`
parameter of `clamp`: `dbl` is the rounding of a `double` operation, `flt` the rounding
of the conversion to `float`. -/
def groupFreqInt (dbl flt : ℚ → ℚ) (period : ℚ) : Int :=
  toInt (clamp (flt (dbl (dbl (24 * period) - 1))) 0 255)

/-- `Pca9634::configureDimmingEffect(ratio)` on a `float` argument. -/
def configureDimmingEffectFloat (ratio : ℚ) (s : Chip) : Chip :=
  configureDimmingEffect (toUint8 (groupPwmInt ratio)) s

/-- `Pca9634::configureBlinkingEffect(period, dutyCycle)` on `float` arguments, for the
roundings `dbl` and `flt` of `groupFreqInt`. -/
def configureBlinkingEffectFloat (dbl flt : ℚ → ℚ) (period dutyCycle : ℚ) (s : Chip) : Chip :=
  configureBlinkingEffect (toUint8 (groupPwmInt dutyCycle))
    (toUint8 (groupFreqInt dbl flt period)) s

/-- The GRPPWM value in the words of the specification:
`round(clamp(ratio, 0, 1) * 256)` clamped to `[0, 255]`. -/
def specGroupPwm (ratio : ℚ) : Int :=
  min 255 (round (clamp ratio 0 1 * 256))

/-- The `float` nearest to the decimal 0.1, `13421773 / 2^27`. -/
def floatTenth : ℚ := 13421773 / 134217728

/-! ## Bit-field facts on bytes -/

set_option maxRecDepth 100000 in
/-- Reading back the 2-bit field that has just been inserted gives the inserted mode. -/
theorem field_insert_get :
    ∀ r < 256, ∀ c < 8, ∀ m < 4,
      ledoutField ((r &&& (0xFF ^^^ (0x03 <<< ((c &&& 0x03) <<< 1)))
        ||| (m <<< ((c &&& 0x03) <<< 1))) % 256) c = m := by
  decide

set_option maxRecDepth 100000 in
/-- Inserting a 2-bit field leaves the field at every other shift as it was. -/
theorem field_insert_other :
    ∀ r < 256, ∀ j < 4, ∀ k < 4, ∀ m < 4, j ≠ k →
      (((r &&& (0xFF ^^^ (0x03 <<< (j <<< 1))) ||| (m <<< (j <<< 1))) % 256)
        >>> (k <<< 1)) &&& 0x03 = (r >>> (k <<< 1)) &&& 0x03 := by
  decide

/-- The register addresses of the channel registers survive the 5-bit mask. -/
theorem ledout_addr : ∀ c < 8, (REG_LEDOUT0 + c / 4) % 256 &&& 0x1F = REG_LEDOUT0 + c / 4 := by
  decide

theorem pwm_addr : ∀ c < 8, (REG_PWM0 + c) % 256 &&& 0x1F = REG_PWM0 + c := by
  decide

theorem low_bits_lt : ∀ c < 8, c &&& 0x03 < 4 := by
  decide

theorem low_bits_ne : ∀ c < 8, ∀ k < 8, c ≠ k → c / 4 = k / 4 → c &&& 0x03 ≠ k &&& 0x03 := by
  decide

theorem ledoutField_lt (r c : Nat) : ledoutField r c < 4 := by
  unfold ledoutField
  exact Nat.lt_of_le_of_lt Nat.and_le_right (by norm_num)

/-! ## Register access -/

theorem readRegister_fst (a : Nat) (s : Chip) :
    (readRegister a s).1 = s.regs (a % 256 &&& 0x1F) % 256 := rfl
theorem readRegister_regs (a : Nat) (s : Chip) : (readRegister a s).2.regs = s.regs := rfl
theorem readRegister_writes (a : Nat) (s : Chip) : (readRegister a s).2.writes = s.writes := rfl
theorem readRegister_log (a : Nat) (s : Chip) :
    (readRegister a s).2.log = s.log ++ readCalls s.i2cSlaveAddr a := rfl
theorem readRegister_addr (a : Nat) (s : Chip) :
    (readRegister a s).2.i2cSlaveAddr = s.i2cSlaveAddr := rfl
theorem writeRegister_regs (a v : Nat) (s : Chip) (x : Nat) :
    (writeRegister a v s).regs x = if x = (a % 256 &&& 0x1F) then v % 256 else s.regs x := rfl
theorem writeRegister_writes (a v : Nat) (s : Chip) :
    (writeRegister a v s).writes = s.writes ++ [⟨a % 256 &&& 0x1F, v % 256, s.regs⟩] := rfl
theorem writeRegister_log (a v : Nat) (s : Chip) :
    (writeRegister a v s).log = s.log ++ writeCalls s.i2cSlaveAddr a v := rfl
theorem writeRegister_addr (a v : Nat) (s : Chip) :
    (writeRegister a v s).i2cSlaveAddr = s.i2cSlaveAddr := rfl

theorem mode_putMode_self (c m : Nat) (s t : Chip) (hc : c < 8) (hm : m < 4) :
    ledoutMode (putMode c m s t).regs c = m := by
  unfold ledoutMode putMode
  rw [writeRegister_regs, ledout_addr c hc, if_pos rfl, Nat.mod_mod]
  exact field_insert_get _ (Nat.mod_lt _ (by norm_num)) c hc m hm

theorem mode_putMode_other (c k m : Nat) (s t : Chip) (hc : c < 8) (hk : k < 8) (hm : m < 4)
    (hne : k ≠ c) (ht : ledoutMode t.regs k = ledoutMode s.regs k) :
    ledoutMode (putMode c m s t).regs k = ledoutMode s.regs k := by
  unfold ledoutMode putMode at *
  rw [writeRegister_regs, ledout_addr c hc]
  by_cases h : k / 4 = c / 4
  · rw [h, if_pos rfl, Nat.mod_mod]
    unfold ledoutField insertField
    exact field_insert_other _ (Nat.mod_lt _ (by norm_num)) _ (low_bits_lt c hc) _
      (low_bits_lt k hk) m hm (low_bits_ne c hc k hk (Ne.symm hne) h.symm)
  · rw [if_neg (by simp only [REG_LEDOUT0]; omega)]
    exact ht

theorem mode_write_pwm (c v k : Nat) (t : Chip) (hc : c < 8) :
    ledoutMode (writeRegister (REG_PWM0 + c) v t).regs k = ledoutMode t.regs k := by
  unfold ledoutMode
  rw [writeRegister_regs, pwm_addr c hc, if_neg (by simp only [REG_LEDOUT0, REG_PWM0]; omega)]

theorem mode_afterRead (c k : Nat) (s : Chip) :
    ledoutMode (afterRead c s).regs k = ledoutMode s.regs k := rfl

/-! ## The branches of `setBrightness` and `setEffectEnabled` -/

theorem setBrightness_ge (c v : Nat) (s : Chip) (hc : 8 ≤ c) : setBrightness c v s = s := by
  unfold setBrightness
  rw [if_pos hc]

theorem setBrightness_dimBlink (c v : Nat) (s : Chip) (hc : c < 8)
    (hm : ledoutMode s.regs c = BRIGHTNESS_DIMMING_BLINKING_CONTROL) :
    setBrightness c v s
      = writeRegister (REG_PWM0 + c) (if v > 0xFF then 0xFF else v) (afterRead c s) := by
  unfold ledoutMode ledoutField at hm
  unfold setBrightness afterRead
  rw [if_neg (show ¬ c ≥ CHANNELS by simp only [CHANNELS]; omega)]
  simp only [readRegister_fst, ledout_addr c hc, hm]
  split_ifs <;> first | rfl | omega | simp_all

theorem setBrightness_full (c v : Nat) (s : Chip) (hc : c < 8) (hv : 256 ≤ v)
    (hm : ledoutMode s.regs c ≠ BRIGHTNESS_DIMMING_BLINKING_CONTROL) :
    setBrightness c v s
      = if ledoutMode s.regs c = FULLY_ON then afterRead c s
        else putMode c FULLY_ON s (afterRead c s) := by
  unfold ledoutMode ledoutField at hm ⊢
  unfold setBrightness afterRead putMode insertField
  rw [if_neg (show ¬ c ≥ CHANNELS by simp only [CHANNELS]; omega)]
  simp only [readRegister_fst, ledout_addr c hc, hm]
  split_ifs <;> first | rfl | omega | simp_all

theorem setBrightness_pwm (c v : Nat) (s : Chip) (hc : c < 8) (hv : v < 256)
    (hm : ledoutMode s.regs c ≠ BRIGHTNESS_DIMMING_BLINKING_CONTROL) :
    setBrightness c v s
      = writeRegister (REG_PWM0 + c) v
          (if ledoutMode s.regs c = BRIGHTNESS_CONTROL then afterRead c s
           else putMode c BRIGHTNESS_CONTROL s (afterRead c s)) := by
  unfold ledoutMode ledoutField at hm ⊢
  unfold setBrightness afterRead putMode insertField
  rw [if_neg (show ¬ c ≥ CHANNELS by simp only [CHANNELS]; omega)]
  simp only [readRegister_fst, ledout_addr c hc, hm]
  split_ifs <;> first | rfl | omega | simp_all

theorem setEffectEnabled_ge (c : Nat) (e : Bool) (s : Chip) (hc : 8 ≤ c) :
    setEffectEnabled c e s = s := by
  unfold setEffectEnabled
  rw [if_pos hc]

theorem setEffectEnabled_on (c : Nat) (s : Chip) (hc : c < 8) :
    setEffectEnabled c true s
      = if ledoutMode s.regs c = FULLY_ON then
          putMode c BRIGHTNESS_DIMMING_BLINKING_CONTROL s
            (writeRegister (REG_PWM0 + c) 0xFF (afterRead c s))
        else if ledoutMode s.regs c = BRIGHTNESS_DIMMING_BLINKING_CONTROL then afterRead c s
        else putMode c BRIGHTNESS_DIMMING_BLINKING_CONTROL s (afterRead c s) := by
  unfold ledoutMode ledoutField
  unfold setEffectEnabled afterRead putMode insertField
  rw [if_neg (show ¬ c ≥ CHANNELS by simp only [CHANNELS]; omega)]
  simp only [readRegister_fst, ledout_addr c hc]
  split_ifs <;> first | rfl | omega | simp_all

theorem setEffectEnabled_off (c : Nat) (s : Chip) (hc : c < 8) :
    setEffectEnabled c false s
      = if ledoutMode s.regs c = BRIGHTNESS_DIMMING_BLINKING_CONTROL then
          putMode c BRIGHTNESS_CONTROL s (afterRead c s)
        else afterRead c s := by
  unfold ledoutMode ledoutField
  unfold setEffectEnabled afterRead putMode insertField
  rw [if_neg (show ¬ c ≥ CHANNELS by simp only [CHANNELS]; omega)]
  simp only [readRegister_fst, ledout_addr c hc]
  split_ifs <;> first | rfl | omega | simp_all

/-! ## What a call adds to the histories -/

theorem writesSince_of_eq (s t : Chip) (l : List RegWrite) (h : t.writes = s.writes ++ l) :
    writesSince s t = l := by
  unfold writesSince
  rw [h, List.drop_left]

theorem callsSince_of_eq (s t : Chip) (l : List Call) (h : t.log = s.log ++ l) :
    callsSince s t = l := by
  unfold callsSince
  rw [h, List.drop_left]

theorem writesSince_self (s : Chip) : writesSince s s = [] :=
  writesSince_of_eq s s [] (List.append_nil _).symm

/-! ## Claims C1 - C6 -/

/-- C1: on a channel `c < 8` whose mode is not BrightnessWithDimBlink and for
a value `v` in `0..256`: if `v < 256` then after `setBrightness c v` the PWM register `0x02 + c`
holds `v` and the mode is BrightnessControl; if `v = 256` the mode is FullyOn, no
write to the PWM register of the channel is issued and its content is unchanged. -/
theorem setBrightness_plain_channel (c v : Nat) (s : Chip) (hc : c < 8)
    (hm : ledoutMode s.regs c ≠ BRIGHTNESS_DIMMING_BLINKING_CONTROL) :
    (v < 256 → (setBrightness c v s).regs (REG_PWM0 + c) = v
        ∧ ledoutMode (setBrightness c v s).regs c = BRIGHTNESS_CONTROL)
    ∧ (v = 256 → ledoutMode (setBrightness c v s).regs c = FULLY_ON
        ∧ (∀ w ∈ writesSince s (setBrightness c v s), w.reg ≠ REG_PWM0 + c)
        ∧ (setBrightness c v s).regs (REG_PWM0 + c) = s.regs (REG_PWM0 + c)) := by
  have hne : REG_PWM0 + c ≠ REG_LEDOUT0 + c / 4 := by simp only [REG_LEDOUT0, REG_PWM0]; omega
  constructor
  · intro hlt
    rw [setBrightness_pwm c v s hc hlt hm, mode_write_pwm c v c _ hc, writeRegister_regs,
      pwm_addr c hc, if_pos rfl, Nat.mod_eq_of_lt hlt]
    refine ⟨rfl, ?_⟩
    split_ifs with h
    · rw [mode_afterRead]; exact h
    · exact mode_putMode_self c _ s _ hc (by decide)
  · intro heq
    rw [setBrightness_full c v s hc (by omega) hm]
    split_ifs with h
    · refine ⟨by rw [mode_afterRead]; exact h, ?_, rfl⟩
      rw [writesSince_of_eq s (afterRead c s) [] (by simp [afterRead, readRegister_writes])]
      simp
    · refine ⟨mode_putMode_self c _ s _ hc (by decide), ?_, ?_⟩
      · rw [writesSince_of_eq s _ [⟨REG_LEDOUT0 + c / 4, _, s.regs⟩]
          (by rw [putMode, writeRegister_writes, ledout_addr c hc]; rfl)]
        intro w hw
        rw [List.mem_singleton] at hw
        rw [hw]
        exact hne.symm
      · rw [putMode, writeRegister_regs, ledout_addr c hc, if_neg hne]
        rfl

/-- C1, at channel 0 of a blank chip: value 200 ends in the PWM register and value
256 ends in FullyOn. -/
theorem setBrightness_plain_channel_witness :
    (setBrightness 0 200 blank).regs (REG_PWM0 + 0) = 200
      ∧ ledoutMode (setBrightness 0 256 blank).regs 0 = FULLY_ON :=
  ⟨((setBrightness_plain_channel 0 200 blank (by decide) (by decide)).1
      (by decide)).1,
   ((setBrightness_plain_channel 0 256 blank (by decide) (by decide)).2 rfl).1⟩

/-- C2: on a channel `c < 8` whose mode is BrightnessWithDimBlink, `setBrightness c v`
with `v > 255` issues exactly one register write, 255 to the PWM register `0x02 + c`
(so no LEDOUT write), and leaves the mode BrightnessWithDimBlink. -/
theorem setBrightness_dimBlink_clamps (c v : Nat) (s : Chip) (hc : c < 8) (hv : 255 < v)
    (hm : ledoutMode s.regs c = BRIGHTNESS_DIMMING_BLINKING_CONTROL) :
    writesSince s (setBrightness c v s) = [⟨REG_PWM0 + c, 255, s.regs⟩]
      ∧ callsSince s (setBrightness c v s)
          = readCalls s.i2cSlaveAddr (REG_LEDOUT0 + c / 4)
              ++ writeCalls s.i2cSlaveAddr (REG_PWM0 + c) 255
      ∧ (setBrightness c v s).regs (REG_PWM0 + c) = 255
      ∧ ledoutMode (setBrightness c v s).regs c = BRIGHTNESS_DIMMING_BLINKING_CONTROL := by
  rw [setBrightness_dimBlink c v s hc hm, if_pos hv]
  refine ⟨?_, ?_, ?_, ?_⟩
  · exact writesSince_of_eq s _ _ (by rw [writeRegister_writes, pwm_addr c hc]; rfl)
  · exact callsSince_of_eq s _ _ (by
      rw [writeRegister_log, afterRead, readRegister_log, readRegister_addr, List.append_assoc])
  · rw [writeRegister_regs, pwm_addr c hc, if_pos rfl]
  · rw [mode_write_pwm c _ c _ hc, mode_afterRead]; exact hm

/-- C2, at channel 0 of a chip whose channel 0 is in BrightnessWithDimBlink, with the
largest 16-bit value. -/
theorem setBrightness_dimBlink_clamps_witness :
    (setBrightness 0 65535 dimBlink0).regs (REG_PWM0 + 0) = 255
      ∧ ledoutMode (setBrightness 0 65535 dimBlink0).regs 0
          = BRIGHTNESS_DIMMING_BLINKING_CONTROL :=
  (setBrightness_dimBlink_clamps 0 65535 dimBlink0 (by decide) (by decide) (by decide)).2.2

/-- C3: `setBrightness c v` twice leaves the register file that `setBrightness c v`
once leaves, for every channel, value and state, and the second call writes neither
LEDOUT register. -/
theorem setBrightness_idempotent (c v : Nat) (s : Chip) :
    (setBrightness c v (setBrightness c v s)).regs = (setBrightness c v s).regs
      ∧ ∀ w ∈ writesSince (setBrightness c v s) (setBrightness c v (setBrightness c v s)),
          w.reg ≠ REG_LEDOUT0 ∧ w.reg ≠ REG_LEDOUT0 + 1 := by
  by_cases hc : c < 8
  swap
  · rw [setBrightness_ge c v s (by omega), setBrightness_ge c v s (by omega), writesSince_self]
    exact ⟨rfl, by simp⟩
  -- the second call, started in a state whose mode is the one the first call leaves
  have redo_pwm : ∀ (t : Chip) (x : Nat), t.regs (REG_PWM0 + c) = x % 256 →
      (writeRegister (REG_PWM0 + c) x (afterRead c t)).regs = t.regs
        ∧ ∀ w ∈ writesSince t (writeRegister (REG_PWM0 + c) x (afterRead c t)),
            w.reg ≠ REG_LEDOUT0 ∧ w.reg ≠ REG_LEDOUT0 + 1 := by
    intro t x hx
    constructor
    · funext a
      rw [writeRegister_regs, pwm_addr c hc]
      split_ifs with h
      · rw [h, hx]
      · rfl
    · rw [writesSince_of_eq t _ [⟨REG_PWM0 + c, x % 256, t.regs⟩]
        (by rw [writeRegister_writes, pwm_addr c hc]; rfl)]
      intro w hw
      rw [List.mem_singleton] at hw
      rw [hw]
      simp only [REG_LEDOUT0, REG_PWM0]
      omega
  have stored : ∀ (t : Chip) (x : Nat),
      (writeRegister (REG_PWM0 + c) x t).regs (REG_PWM0 + c) = x % 256 := by
    intro t x
    rw [writeRegister_regs, pwm_addr c hc, if_pos rfl]
  by_cases hm : ledoutMode s.regs c = BRIGHTNESS_DIMMING_BLINKING_CONTROL
  · -- mode 3 stays, the same clamped byte is written again
    have h1 := setBrightness_dimBlink c v s hc hm
    have hm1 : ledoutMode (setBrightness c v s).regs c = BRIGHTNESS_DIMMING_BLINKING_CONTROL := by
      rw [h1, mode_write_pwm c _ c _ hc, mode_afterRead]; exact hm
    rw [setBrightness_dimBlink c v _ hc hm1]
    exact redo_pwm _ _ (by rw [h1]; exact stored _ _)
  · by_cases hv : v < 256
    · -- the first call ends in BRIGHTNESS_CONTROL with `v` in the PWM register
      have h1 := setBrightness_pwm c v s hc hv hm
      have hm1 : ledoutMode (setBrightness c v s).regs c = BRIGHTNESS_CONTROL := by
        rw [h1, mode_write_pwm c _ c _ hc]
        split_ifs with h
        · rw [mode_afterRead]; exact h
        · exact mode_putMode_self c _ s _ hc (by decide)
      rw [setBrightness_pwm c v _ hc hv (by rw [hm1]; decide), if_pos hm1]
      exact redo_pwm _ _ (by rw [h1]; exact stored _ _)
    · -- the first call ends in FULLY_ON, the second only reads
      have h1 := setBrightness_full c v s hc (by omega) hm
      have hm1 : ledoutMode (setBrightness c v s).regs c = FULLY_ON := by
        rw [h1]
        split_ifs with h
        · rw [mode_afterRead]; exact h
        · exact mode_putMode_self c _ s _ hc (by decide)
      rw [setBrightness_full c v _ hc (by omega) (by rw [hm1]; decide), if_pos hm1]
      refine ⟨rfl, ?_⟩
      rw [writesSince_of_eq _ (afterRead c _) [] (by simp [afterRead, readRegister_writes])]
      simp

/-- C4: on a channel `c < 8` whose mode is FullyOn, `setEffectEnabled c true` issues
exactly two register writes, in this order: 0xFF to the PWM register `0x02 + c`, then
to the LEDOUT register `0x0C + c / 4` the byte read from it with the field of channel
`c` replaced by BrightnessWithDimBlink. -/
theorem setEffectEnabled_from_fullyOn (c : Nat) (s : Chip) (hc : c < 8)
    (hm : ledoutMode s.regs c = FULLY_ON) :
    writePairs s (setEffectEnabled c true s)
        = [(REG_PWM0 + c, 0xFF),
           (REG_LEDOUT0 + c / 4,
            insertField (s.regs (REG_LEDOUT0 + c / 4) % 256) c
              BRIGHTNESS_DIMMING_BLINKING_CONTROL % 256)]
      ∧ ledoutField (insertField (s.regs (REG_LEDOUT0 + c / 4) % 256) c
            BRIGHTNESS_DIMMING_BLINKING_CONTROL % 256) c = BRIGHTNESS_DIMMING_BLINKING_CONTROL
      ∧ callsSince s (setEffectEnabled c true s)
          = readCalls s.i2cSlaveAddr (REG_LEDOUT0 + c / 4)
              ++ writeCalls s.i2cSlaveAddr (REG_PWM0 + c) 0xFF
              ++ writeCalls s.i2cSlaveAddr (REG_LEDOUT0 + c / 4)
                  (insertField (s.regs (REG_LEDOUT0 + c / 4) % 256) c
                    BRIGHTNESS_DIMMING_BLINKING_CONTROL) := by
  rw [setEffectEnabled_on c s hc, if_pos hm]
  refine ⟨?_, ?_, ?_⟩
  · unfold writePairs
    rw [writesSince_of_eq s _
      [⟨REG_PWM0 + c, 0xFF % 256, s.regs⟩,
       ⟨REG_LEDOUT0 + c / 4, _, (writeRegister (REG_PWM0 + c) 0xFF (afterRead c s)).regs⟩]
      (by rw [putMode, writeRegister_writes, writeRegister_writes, ledout_addr c hc,
            pwm_addr c hc, List.append_assoc]; rfl)]
    rfl
  · exact field_insert_get _ (Nat.mod_lt _ (by norm_num)) c hc _ (by decide)
  · exact callsSince_of_eq s _ _ (by
      simp only [putMode, writeRegister_log, afterRead, readRegister_log,
        writeRegister_addr, readRegister_addr, List.append_assoc])

/-- C4, at channel 0 of a chip whose channel 0 is FullyOn (LEDOUT0 = 0x01): the
writes are PWM0 := 0xFF, then LEDOUT0 := 0x03. -/
theorem setEffectEnabled_from_fullyOn_witness :
    writePairs fullyOn0 (setEffectEnabled 0 true fullyOn0)
      = [(REG_PWM0 + 0, 0xFF),
         (REG_LEDOUT0 + 0 / 4,
          insertField (fullyOn0.regs (REG_LEDOUT0 + 0 / 4) % 256) 0
            BRIGHTNESS_DIMMING_BLINKING_CONTROL % 256)] :=
  (setEffectEnabled_from_fullyOn 0 fullyOn0 (by decide) (by decide)).1

/-- C5: on a channel `c < 8` whose mode is not BrightnessWithDimBlink (Off, FullyOn or
BrightnessControl), `setEffectEnabled c false` issues no register write: the register
file is unchanged and the only bus traffic is the read of the LEDOUT register. -/
theorem setEffectEnabled_off_noop (c : Nat) (s : Chip) (hc : c < 8)
    (hm : ledoutMode s.regs c ≠ BRIGHTNESS_DIMMING_BLINKING_CONTROL) :
    writesSince s (setEffectEnabled c false s) = []
      ∧ (setEffectEnabled c false s).regs = s.regs
      ∧ callsSince s (setEffectEnabled c false s)
          = readCalls s.i2cSlaveAddr (REG_LEDOUT0 + c / 4) := by
  rw [setEffectEnabled_off c s hc, if_neg hm]
  exact ⟨writesSince_of_eq s _ [] (by simp [afterRead, readRegister_writes]), rfl,
    callsSince_of_eq s _ _ rfl⟩

/-- C5, at channel 0 of a chip whose channel 0 is FullyOn. -/
theorem setEffectEnabled_off_noop_witness :
    writesSince fullyOn0 (setEffectEnabled 0 false fullyOn0) = []
      ∧ (setEffectEnabled 0 false fullyOn0).regs = fullyOn0.regs :=
  ⟨(setEffectEnabled_off_noop 0 fullyOn0 (by decide) (by decide)).1,
   (setEffectEnabled_off_noop 0 fullyOn0 (by decide) (by decide)).2.1⟩

/-- C6: for a channel index `c ≥ 8`, `setBrightness c v` and `setEffectEnabled c e`
return the state they were given: no register read, no register write, register file
and transport log unchanged. -/
theorem channel_out_of_range (c v : Nat) (e : Bool) (s : Chip) (hc : 8 ≤ c) :
    setBrightness c v s = s ∧ setEffectEnabled c e s = s :=
  ⟨setBrightness_ge c v s hc, setEffectEnabled_ge c e s hc⟩

/-- C6, at the channel indices 8 and 255. -/
theorem channel_out_of_range_witness :
    (setBrightness 8 256 blank = blank ∧ setEffectEnabled 8 true blank = blank)
      ∧ (setBrightness 255 0 blank = blank ∧ setEffectEnabled 255 false blank = blank) :=
  ⟨channel_out_of_range 8 256 true blank (by decide),
   channel_out_of_range 255 0 false blank (by decide)⟩

/-! ## The mode of every channel after a channel operation -/

theorem mode_setBrightness_self (c v : Nat) (s : Chip) (hc : c < 8) :
    ledoutMode (setBrightness c v s).regs c
      = if ledoutMode s.regs c = BRIGHTNESS_DIMMING_BLINKING_CONTROL then
          BRIGHTNESS_DIMMING_BLINKING_CONTROL
        else if v < 256 then BRIGHTNESS_CONTROL else FULLY_ON := by
  by_cases hm : ledoutMode s.regs c = BRIGHTNESS_DIMMING_BLINKING_CONTROL
  · rw [if_pos hm, setBrightness_dimBlink c v s hc hm, mode_write_pwm c _ c _ hc, mode_afterRead]
    exact hm
  · rw [if_neg hm]
    by_cases hv : v < 256
    · rw [if_pos hv, setBrightness_pwm c v s hc hv hm, mode_write_pwm c _ c _ hc]
      split_ifs with h
      · rw [mode_afterRead]; exact h
      · exact mode_putMode_self c _ s _ hc (by decide)
    · rw [if_neg hv, setBrightness_full c v s hc (by omega) hm]
      split_ifs with h
      · rw [mode_afterRead]; exact h
      · exact mode_putMode_self c _ s _ hc (by decide)

theorem mode_setBrightness_other (c v k : Nat) (s : Chip) (hk : k < 8) (hne : k ≠ c) :
    ledoutMode (setBrightness c v s).regs k = ledoutMode s.regs k := by
  by_cases hc : c < 8
  swap
  · rw [setBrightness_ge c v s (by omega)]
  by_cases hm : ledoutMode s.regs c = BRIGHTNESS_DIMMING_BLINKING_CONTROL
  · rw [setBrightness_dimBlink c v s hc hm, mode_write_pwm c _ k _ hc, mode_afterRead]
  · by_cases hv : v < 256
    · rw [setBrightness_pwm c v s hc hv hm, mode_write_pwm c _ k _ hc]
      split_ifs with h
      · rw [mode_afterRead]
      · exact mode_putMode_other c k _ s _ hc hk (by decide) hne (mode_afterRead c k s)
    · rw [setBrightness_full c v s hc (by omega) hm]
      split_ifs with h
      · rw [mode_afterRead]
      · exact mode_putMode_other c k _ s _ hc hk (by decide) hne (mode_afterRead c k s)

theorem mode_setEffectEnabled_self (c : Nat) (e : Bool) (s : Chip) (hc : c < 8) :
    ledoutMode (setEffectEnabled c e s).regs c
      = if e = true then BRIGHTNESS_DIMMING_BLINKING_CONTROL
        else if ledoutMode s.regs c = BRIGHTNESS_DIMMING_BLINKING_CONTROL then BRIGHTNESS_CONTROL
        else ledoutMode s.regs c := by
  cases e
  · rw [if_neg (by decide), setEffectEnabled_off c s hc]
    split_ifs with h
    · exact mode_putMode_self c _ s _ hc (by decide)
    · rw [mode_afterRead]
  · rw [if_pos rfl, setEffectEnabled_on c s hc]
    split_ifs with h1 h3
    · exact mode_putMode_self c _ s _ hc (by decide)
    · rw [mode_afterRead]; exact h3
    · exact mode_putMode_self c _ s _ hc (by decide)

theorem mode_setEffectEnabled_other (c k : Nat) (e : Bool) (s : Chip) (hk : k < 8)
    (hne : k ≠ c) :
    ledoutMode (setEffectEnabled c e s).regs k = ledoutMode s.regs k := by
  by_cases hc : c < 8
  swap
  · rw [setEffectEnabled_ge c e s (by omega)]
  cases e
  · rw [setEffectEnabled_off c s hc]
    split_ifs with h
    · exact mode_putMode_other c k _ s _ hc hk (by decide) hne (mode_afterRead c k s)
    · rw [mode_afterRead]
  · rw [setEffectEnabled_on c s hc]
    split_ifs with h1 h3
    · exact mode_putMode_other c k _ s _ hc hk (by decide) hne
        (by rw [mode_write_pwm c _ k _ hc, mode_afterRead])
    · rw [mode_afterRead]
    · exact mode_putMode_other c k _ s _ hc hk (by decide) hne (mode_afterRead c k s)

/-! ## Claims C8 and C9 -/

/-- C8: no `setBrightness` or `setEffectEnabled` call sets a mode to Off: for every
state, arguments and channel `k < 8`, if the mode of `k` is Off after the call then it
was Off before the call. -/
theorem never_sets_off (s : Chip) (k : Nat) (hk : k < 8) :
    (∀ c v, ledoutMode (setBrightness c v s).regs k = OFF → ledoutMode s.regs k = OFF)
      ∧ (∀ c e, ledoutMode (setEffectEnabled c e s).regs k = OFF
            → ledoutMode s.regs k = OFF) := by
  constructor
  · intro c v h
    by_cases hkc : k = c
    · subst hkc
      rw [mode_setBrightness_self k v s hk] at h
      split_ifs at h
    · rwa [mode_setBrightness_other c v k s hk hkc] at h
  · intro c e h
    by_cases hkc : k = c
    · subst hkc
      rw [mode_setEffectEnabled_self k e s hk] at h
      split_ifs at h
      exact h
    · rwa [mode_setEffectEnabled_other c k e s hk hkc] at h

/-- C8, at channel 1 of a blank chip: calls on channel 0 and on channel 1 itself. -/
theorem never_sets_off_witness :
    (ledoutMode (setBrightness 0 7 blank).regs 1 = OFF → ledoutMode blank.regs 1 = OFF)
      ∧ (ledoutMode (setEffectEnabled 1 false blank).regs 1 = OFF
          → ledoutMode blank.regs 1 = OFF) :=
  ⟨(never_sets_off blank 1 (by decide)).1 0 7, (never_sets_off blank 1 (by decide)).2 1 false⟩

/-- C9: for a channel `c < 8`, after `setEffectEnabled c e` the mode of the channel is
BrightnessWithDimBlink if and only if `e` is true: enabling ends in
BrightnessWithDimBlink from every mode, disabling turns BrightnessWithDimBlink into
BrightnessControl and leaves every other mode as it was. -/
theorem setEffectEnabled_final_mode (c : Nat) (e : Bool) (s : Chip) (hc : c < 8) :
    (ledoutMode (setEffectEnabled c e s).regs c = BRIGHTNESS_DIMMING_BLINKING_CONTROL
        ↔ e = true)
      ∧ (e = false → ledoutMode s.regs c = BRIGHTNESS_DIMMING_BLINKING_CONTROL
          → ledoutMode (setEffectEnabled c e s).regs c = BRIGHTNESS_CONTROL)
      ∧ (e = false → ledoutMode s.regs c ≠ BRIGHTNESS_DIMMING_BLINKING_CONTROL
          → ledoutMode (setEffectEnabled c e s).regs c = ledoutMode s.regs c) := by
  rw [mode_setEffectEnabled_self c e s hc]
  cases e
  · refine ⟨?_, ?_, ?_⟩
    · rw [if_neg (by decide)]
      split_ifs with h
      · simp
      · simp [h]
    · intro _ h
      rw [if_neg (by decide), if_pos h]
    · intro _ h
      rw [if_neg (by decide), if_neg h]
  · refine ⟨?_, ?_, ?_⟩
    · rw [if_pos rfl]
      simp
    · intro h; cases h
    · intro h; cases h

/-- C9, enabling the effect on channel 0 of a blank chip, whose mode is Off. -/
theorem setEffectEnabled_final_mode_witness :
    ledoutMode blank.regs 0 = OFF
      ∧ (ledoutMode (setEffectEnabled 0 true blank).regs 0
            = BRIGHTNESS_DIMMING_BLINKING_CONTROL ↔ true = true) :=
  ⟨by decide, (setEffectEnabled_final_mode 0 true blank (by decide)).1⟩

/-- None of the lifecycle, address and configuration operations writes a register in
`0x02 .. 0x09`. -/
theorem config_ops_skip_pwm (op : Op) (s : Chip) (w : RegWrite)
    (hb : ∀ c v, op ≠ Op.setBrightness c v) (he : ∀ c e, op ≠ Op.setEffectEnabled c e)
    (hw : w ∈ writesSince s (run op s)) : w.reg < REG_PWM0 ∨ REG_PWM0 + 8 ≤ w.reg := by
  cases op with
  | setBrightness c v => exact absurd rfl (hb c v)
  | setEffectEnabled c e => exact absurd rfl (he c e)
  | _ =>
    simp only [writesSince, run, begin, reset, sleep, wakeup, setSubaddress1Active,
      setSubaddress2Active, setSubaddress3Active, setAllCallAddressActive,
      setAllCallAddressInactive, setAddressActive, configureOutputs, configureDimmingEffect,
      configureBlinkingEffect, setGroupPwm, writeRegister_writes, readRegister_writes,
      List.append_assoc, List.drop_left, List.drop_length, if_true, Bool.false_eq_true,
      if_false] at hw
    first
      | (simp [REG_SUBADR1, REG_GRPPWM, REG_GRPFREQ, REG_MODE1, REG_MODE2] at hw; done)
      | (simp [REG_SUBADR1, REG_GRPPWM, REG_GRPFREQ, REG_MODE1, REG_MODE2] at hw
         (try casesm* _ ∨ _) <;> subst_vars <;> dsimp only <;> decide)

/-! ## Claim C7 -/

/-- C7 as stated fails: on a chip whose channel 0 is FullyOn, `setEffectEnabled 0 true`
issues a write to the PWM register of channel 0 while the mode of channel 0 in the
register file is still FullyOn. -/
theorem pwm_write_while_fullyOn :
    ¬ (∀ w ∈ writesSince fullyOn0 (run (Op.setEffectEnabled 0 true) fullyOn0),
        ∀ k < 8, w.reg = REG_PWM0 + k → ledoutMode w.before k ≠ FULLY_ON) := by
  intro h
  refine h ⟨0x02, 0xFF, fullyOn0.regs⟩ ?_ 0 (by decide) rfl (by decide)
  rw [show writesSince fullyOn0 (run (Op.setEffectEnabled 0 true) fullyOn0)
      = [⟨0x02, 0xFF, fullyOn0.regs⟩,
         ⟨0x0C, 0x03, (writeRegister 0x02 0xFF fullyOn0).regs⟩] from rfl]
  exact List.mem_cons_self _ _

/-- C7, amended: whenever an operation of the controller issues a write to the PWM
register of a channel `k < 8`, the mode of `k` in the register file at that moment is
not FullyOn, except for the write of 0xFF that `setEffectEnabled k true` issues first,
on the register file it was called with, when the mode of `k` is FullyOn. -/
theorem pwm_write_mode (op : Op) (s : Chip) (w : RegWrite) (k : Nat)
    (hw : w ∈ writesSince s (run op s)) (hk : k < 8) (hreg : w.reg = REG_PWM0 + k) :
    ledoutMode w.before k ≠ FULLY_ON
      ∨ (op = Op.setEffectEnabled k true ∧ w.value = 0xFF ∧ w.before = s.regs
          ∧ ledoutMode s.regs k = FULLY_ON) := by
  have hpwm : ∀ c, REG_PWM0 + c = REG_PWM0 + k → c = k := by
    intro c h; simp only [REG_PWM0] at h; omega
  have hled : ∀ c, REG_LEDOUT0 + c / 4 ≠ REG_PWM0 + k := by
    intro c; simp only [REG_LEDOUT0, REG_PWM0]; omega
  cases op with
  | setBrightness c v =>
    left
    simp only [run] at hw
    by_cases hc : c < 8
    swap
    · rw [setBrightness_ge c v s (by omega), writesSince_self] at hw
      exact absurd hw (List.not_mem_nil _)
    by_cases hm : ledoutMode s.regs c = BRIGHTNESS_DIMMING_BLINKING_CONTROL
    · rw [setBrightness_dimBlink c v s hc hm,
        writesSince_of_eq s _ [⟨REG_PWM0 + c, _, s.regs⟩]
          (by rw [writeRegister_writes, pwm_addr c hc]; rfl), List.mem_singleton] at hw
      subst hw
      have hck := hpwm c hreg
      subst hck
      show ledoutMode s.regs c ≠ FULLY_ON
      rw [hm]; decide
    · by_cases hv : v < 256
      · rw [setBrightness_pwm c v s hc hv hm] at hw
        split_ifs at hw with h2
        · rw [writesSince_of_eq s _ [⟨REG_PWM0 + c, _, s.regs⟩]
            (by rw [writeRegister_writes, pwm_addr c hc]; rfl), List.mem_singleton] at hw
          subst hw
          have hck := hpwm c hreg
          subst hck
          show ledoutMode s.regs c ≠ FULLY_ON
          rw [h2]; decide
        · rw [writesSince_of_eq s _
            [⟨REG_LEDOUT0 + c / 4, _, s.regs⟩,
             ⟨REG_PWM0 + c, _, (putMode c BRIGHTNESS_CONTROL s (afterRead c s)).regs⟩]
            (by rw [writeRegister_writes, putMode, writeRegister_writes, pwm_addr c hc,
                  ledout_addr c hc, List.append_assoc]; rfl)] at hw
          rw [List.mem_cons, List.mem_singleton] at hw
          rcases hw with hw | hw
          · subst hw
            exact absurd hreg (hled c)
          · subst hw
            have hck := hpwm c hreg
            subst hck
            show ledoutMode (putMode c BRIGHTNESS_CONTROL s (afterRead c s)).regs c ≠ FULLY_ON
            rw [mode_putMode_self c _ s _ hc (by decide)]; decide
      · rw [setBrightness_full c v s hc (by omega) hm] at hw
        split_ifs at hw with h1
        · rw [writesSince_of_eq s (afterRead c s) [] (by simp [afterRead, readRegister_writes])]
            at hw
          exact absurd hw (List.not_mem_nil _)
        · rw [writesSince_of_eq s _ [⟨REG_LEDOUT0 + c / 4, _, s.regs⟩]
            (by rw [putMode, writeRegister_writes, ledout_addr c hc]; rfl),
            List.mem_singleton] at hw
          subst hw
          exact absurd hreg (hled c)
  | setEffectEnabled c e =>
    simp only [run] at hw
    by_cases hc : c < 8
    swap
    · rw [setEffectEnabled_ge c e s (by omega), writesSince_self] at hw
      exact absurd hw (List.not_mem_nil _)
    cases e
    · rw [setEffectEnabled_off c s hc] at hw
      split_ifs at hw with h3
      · rw [writesSince_of_eq s _ [⟨REG_LEDOUT0 + c / 4, _, s.regs⟩]
          (by rw [putMode, writeRegister_writes, ledout_addr c hc]; rfl),
          List.mem_singleton] at hw
        subst hw
        exact absurd hreg (hled c)
      · rw [writesSince_of_eq s (afterRead c s) [] (by simp [afterRead, readRegister_writes])]
          at hw
        exact absurd hw (List.not_mem_nil _)
    · rw [setEffectEnabled_on c s hc] at hw
      split_ifs at hw with h1 h3
      · rw [writesSince_of_eq s _
          [⟨REG_PWM0 + c, 0xFF, s.regs⟩,
           ⟨REG_LEDOUT0 + c / 4, _, (writeRegister (REG_PWM0 + c) 0xFF (afterRead c s)).regs⟩]
          (by rw [putMode, writeRegister_writes, writeRegister_writes, pwm_addr c hc,
                ledout_addr c hc, List.append_assoc]; rfl)] at hw
        rw [List.mem_cons, List.mem_singleton] at hw
        rcases hw with hw | hw
        · subst hw
          have hck := hpwm c hreg
          subst hck
          exact Or.inr ⟨rfl, rfl, rfl, h1⟩
        · subst hw
          exact absurd hreg (hled c)
      · rw [writesSince_of_eq s (afterRead c s) [] (by simp [afterRead, readRegister_writes])]
          at hw
        exact absurd hw (List.not_mem_nil _)
      · rw [writesSince_of_eq s _ [⟨REG_LEDOUT0 + c / 4, _, s.regs⟩]
          (by rw [putMode, writeRegister_writes, ledout_addr c hc]; rfl),
          List.mem_singleton] at hw
        subst hw
        exact absurd hreg (hled c)
  | _ =>
    have h := config_ops_skip_pwm _ s w (fun c v h => by cases h) (fun c e h => by cases h) hw
    simp only [REG_PWM0] at h hreg
    omega

/-- C7 amended, at the PWM write that `setBrightness 0 200` issues on a blank chip:
the mode of channel 0 has been set to BrightnessControl before it. -/
theorem pwm_write_mode_witness :
    ledoutMode (writeRegister 0x0C 0x02 blank).regs 0 ≠ FULLY_ON
      ∨ (Op.setBrightness 0 200 = Op.setEffectEnabled 0 true ∧ 200 = 0xFF
          ∧ (writeRegister 0x0C 0x02 blank).regs = blank.regs
          ∧ ledoutMode blank.regs 0 = FULLY_ON) :=
  pwm_write_mode (Op.setBrightness 0 200) blank ⟨0x02, 200, (writeRegister 0x0C 0x02 blank).regs⟩ 0
    (by
      rw [show writesSince blank (run (Op.setBrightness 0 200) blank)
          = [⟨0x0C, 0x02, blank.regs⟩, ⟨0x02, 200, (writeRegister 0x0C 0x02 blank).regs⟩]
          from rfl]
      exact List.mem_cons_of_mem _ (List.mem_cons_self _ _))
    (by decide) rfl

/-! ## Claim C10 -/

set_option maxRecDepth 100000 in
/-- Setting bit 3 of a byte: the result is a byte, has bit 3 set and keeps the other bits. -/
theorem or_8_facts :
    ∀ m < 256, (m ||| 0x08) % 256 = m ||| 0x08 ∧ (m ||| 0x08) &&& 0x08 = 0x08
      ∧ (m ||| 0x08) &&& 0xF7 = m &&& 0xF7 := by
  decide

/-- C10 as stated fails: on a chip whose MODE1 holds 0, `setSubaddress1Active 0x50`
writes 0xA0 to the first sub-address register and then 0x08 to MODE1, so bit 2
(mask 0x04) of MODE1 is clear after the call. -/
theorem setSubaddress1Active_bit2_clear :
    writePairs blank (setSubaddress1Active 0x50 blank)
        = [(REG_SUBADR1, 0xA0), (REG_MODE1, 0x08)]
      ∧ (setSubaddress1Active 0x50 blank).regs REG_MODE1 &&& 0x04 = 0 := by
  decide

/-- C10, amended: `setSubaddress1Active 0x50` writes `(0x50 << 1) & 0xFF = 0xA0` to the
first sub-address register (0x0E) and then writes MODE1 back with bit 3
(mask `0x08 = 0x08 >> 0`) set and every other bit as it was read, for every prior
MODE1 value. -/
theorem setSubaddress1Active_sets_bit3 (s : Chip) :
    writePairs s (setSubaddress1Active 0x50 s)
        = [(REG_SUBADR1, 0xA0), (REG_MODE1, s.regs REG_MODE1 % 256 ||| 0x08)]
      ∧ (s.regs REG_MODE1 % 256 ||| 0x08) &&& 0x08 = 0x08
      ∧ (s.regs REG_MODE1 % 256 ||| 0x08) &&& 0xF7 = s.regs REG_MODE1 % 256 &&& 0xF7
      ∧ callsSince s (setSubaddress1Active 0x50 s)
          = writeCalls s.i2cSlaveAddr REG_SUBADR1 0xA0
              ++ readCalls s.i2cSlaveAddr REG_MODE1
              ++ writeCalls s.i2cSlaveAddr REG_MODE1 (s.regs REG_MODE1 % 256 ||| 0x08) := by
  have hm := or_8_facts (s.regs REG_MODE1 % 256) (Nat.mod_lt _ (by norm_num))
  have hrd : (readRegister REG_MODE1 (writeRegister (REG_SUBADR1 + 0) (0x50 <<< 1 &&& 0xFF) s)).1
      = s.regs REG_MODE1 % 256 := rfl
  refine ⟨?_, hm.2.1, hm.2.2, ?_⟩
  · unfold writePairs
    rw [writesSince_of_eq s _
      [⟨REG_SUBADR1, 0xA0, s.regs⟩,
       ⟨REG_MODE1, (s.regs REG_MODE1 % 256 ||| 0x08) % 256,
        (writeRegister (REG_SUBADR1 + 0) (0x50 <<< 1 &&& 0xFF) s).regs⟩]
      (by
        simp only [setSubaddress1Active, setAddressActive, if_true, writeRegister_writes,
          readRegister_writes, hrd, List.append_assoc]
        rfl)]
    simp only [List.map, hm.1]
  · exact callsSince_of_eq s _ _ (by
      simp only [setSubaddress1Active, setAddressActive, if_true, writeRegister_log,
        readRegister_log, writeRegister_addr, readRegister_addr, hrd, List.append_assoc]
      rfl)

/-! ## Claims C11, C12, C16, C17, C18 -/

set_option maxRecDepth 100000 in
/-- Setting the enable bit of a slot in a byte: the result is a byte, has the bit set
and keeps the other bits. -/
theorem enable_bit_facts :
    ∀ m < 256, ∀ slot < 4,
      (0x08 >>> slot) % 256 = 0x08 >>> slot
        ∧ (m ||| (0x08 >>> slot)) % 256 = m ||| (0x08 >>> slot)
        ∧ (m ||| (0x08 >>> slot)) &&& (0x08 >>> slot) = 0x08 >>> slot
        ∧ (m ||| (0x08 >>> slot)) &&& (0xFF ^^^ (0x08 >>> slot))
            = m &&& (0xFF ^^^ (0x08 >>> slot)) := by
  decide

set_option maxRecDepth 100000 in
/-- Clearing bit 0 of a byte, as `setAddressActive 3 _ false` computes it. -/
theorem clear_bit0_facts :
    ∀ m < 256,
      (m &&& (0xFF ^^^ (0x08 >>> 3) % 256)) % 256 = m &&& 0xFE
        ∧ (m &&& 0xFE) &&& 0x01 = 0
        ∧ (m &&& 0xFE) ||| (m &&& 0x01) = m := by
  decide

/-- C11: for every slot in `0..3` and address, enabling issues exactly two register
writes, first the shifted address to register `0x0E + slot` and then MODE1 with bit
`0x08 >> slot` set and the other bits as read; `setAllCallAddressInactive` issues
exactly one write, to MODE1, with bit 0 cleared and every other bit as read, and so
writes no address register. -/
theorem address_enable_order (slot addr : Nat) (s : Chip) (hslot : slot < 4) :
    writePairs s (setAddressActive slot addr true s)
        = [(REG_SUBADR1 + slot, (addr <<< 1) &&& 0xFF),
           (REG_MODE1, s.regs REG_MODE1 % 256 ||| (0x08 >>> slot))]
      ∧ (s.regs REG_MODE1 % 256 ||| (0x08 >>> slot)) &&& (0x08 >>> slot) = 0x08 >>> slot
      ∧ (s.regs REG_MODE1 % 256 ||| (0x08 >>> slot)) &&& (0xFF ^^^ (0x08 >>> slot))
          = s.regs REG_MODE1 % 256 &&& (0xFF ^^^ (0x08 >>> slot))
      ∧ callsSince s (setAddressActive slot addr true s)
          = writeCalls s.i2cSlaveAddr (REG_SUBADR1 + slot) ((addr <<< 1) &&& 0xFF)
              ++ readCalls s.i2cSlaveAddr REG_MODE1
              ++ writeCalls s.i2cSlaveAddr REG_MODE1 (s.regs REG_MODE1 % 256 ||| (0x08 >>> slot))
      ∧ writePairs s (setAllCallAddressInactive s)
          = [(REG_MODE1, s.regs REG_MODE1 % 256 &&& 0xFE)]
      ∧ (s.regs REG_MODE1 % 256 &&& 0xFE) &&& 0x01 = 0
      ∧ (s.regs REG_MODE1 % 256 &&& 0xFE) ||| (s.regs REG_MODE1 % 256 &&& 0x01)
          = s.regs REG_MODE1 % 256 := by
  have hlt : s.regs REG_MODE1 % 256 < 256 := Nat.mod_lt _ (by norm_num)
  have hm := enable_bit_facts _ hlt slot hslot
  have hc := clear_bit0_facts _ hlt
  have hbyte : ((addr <<< 1) &&& 0xFF) % 256 = (addr <<< 1) &&& 0xFF :=
    Nat.mod_eq_of_lt (Nat.lt_of_le_of_lt Nat.and_le_right (by norm_num))
  have haddr : (REG_SUBADR1 + slot) % 256 &&& 0x1F = REG_SUBADR1 + slot := by
    interval_cases slot <;> rfl
  have hrd : (readRegister REG_MODE1
      (writeRegister (REG_SUBADR1 + slot) ((addr <<< 1) &&& 0xFF) s)).1
        = s.regs REG_MODE1 % 256 := by
    rw [readRegister_fst, writeRegister_regs, haddr,
      show REG_MODE1 % 256 &&& 0x1F = REG_MODE1 from rfl,
      if_neg (by simp only [REG_MODE1, REG_SUBADR1]; omega)]
  refine ⟨?_, hm.2.2.1, hm.2.2.2, ?_, ?_, hc.2.1, hc.2.2⟩
  · unfold writePairs
    rw [writesSince_of_eq s _
      [⟨REG_SUBADR1 + slot, (addr <<< 1) &&& 0xFF, s.regs⟩,
       ⟨REG_MODE1, s.regs REG_MODE1 % 256 ||| (0x08 >>> slot),
        (writeRegister (REG_SUBADR1 + slot) ((addr <<< 1) &&& 0xFF) s).regs⟩]
      (by
        simp only [setAddressActive, if_true, writeRegister_writes, readRegister_writes, hrd,
          readRegister_regs, haddr, hbyte, hm.1, hm.2.1, List.append_assoc]
        rfl)]
    rfl
  · exact callsSince_of_eq s _ _ (by
      simp only [setAddressActive, if_true, writeRegister_log, readRegister_log,
        writeRegister_addr, readRegister_addr, hrd, List.append_assoc, hm.1])
  · unfold writePairs
    rw [writesSince_of_eq s _ [⟨REG_MODE1, s.regs REG_MODE1 % 256 &&& 0xFE, s.regs⟩]
      (by
        simp only [setAllCallAddressInactive, setAddressActive, Bool.false_eq_true, if_false,
          writeRegister_writes, readRegister_writes, readRegister_fst, readRegister_regs]
        rw [show REG_MODE1 % 256 &&& 0x1F = REG_MODE1 from rfl, hc.1])]
    rfl

/-- C11, at slot 2 with address 0x50 on a blank chip: SUBADR3 (0x10) := 0xA0, then
MODE1 := 0x02. -/
theorem address_enable_order_witness :
    writePairs blank (setAddressActive 2 0x50 true blank)
      = [(REG_SUBADR1 + 2, (0x50 <<< 1) &&& 0xFF),
         (REG_MODE1, blank.regs REG_MODE1 % 256 ||| (0x08 >>> 2))] :=
  (address_enable_order 2 0x50 blank (by decide)).1

set_option maxRecDepth 100000 in
/-- The MODE2 byte that `configureOutputs` builds, field by field. -/
theorem mode2_fields :
    ∀ i < 2, ∀ trigger < 2, ∀ structure_ < 2, ∀ output < 3, ∀ m < 256,
      ((m &&& 0x20) ||| (i <<< 4) ||| (trigger <<< 3) ||| (structure_ <<< 2) ||| output) < 256
        ∧ ((m &&& 0x20) ||| (i <<< 4) ||| (trigger <<< 3) ||| (structure_ <<< 2)
            ||| output) &&& 0x20 = m &&& 0x20
        ∧ ((m &&& 0x20) ||| (i <<< 4) ||| (trigger <<< 3) ||| (structure_ <<< 2)
            ||| output) &&& 0xC0 = 0
        ∧ (((m &&& 0x20) ||| (i <<< 4) ||| (trigger <<< 3) ||| (structure_ <<< 2)
            ||| output) >>> 4) &&& 0x01 = i
        ∧ (((m &&& 0x20) ||| (i <<< 4) ||| (trigger <<< 3) ||| (structure_ <<< 2)
            ||| output) >>> 3) &&& 0x01 = trigger
        ∧ (((m &&& 0x20) ||| (i <<< 4) ||| (trigger <<< 3) ||| (structure_ <<< 2)
            ||| output) >>> 2) &&& 0x01 = structure_
        ∧ ((m &&& 0x20) ||| (i <<< 4) ||| (trigger <<< 3) ||| (structure_ <<< 2)
            ||| output) &&& 0x03 = output := by
  intro i hi trigger ht structure_ hs output ho
  interval_cases i <;> interval_cases trigger <;> interval_cases structure_
    <;> interval_cases output <;> decide

/-- C12: for every prior MODE2 byte `m`, every `inverted`, `trigger` and `structure` in
`0..1` and `outputWhenDisabled` in `0..2`, `configureOutputs` issues exactly one register
write, MODE2 := `(m & 0x20) | (inverted << 4) | (trigger << 3) | (structure << 2) | output`;
in that byte bit 5 is the old bit 5, bits 7-6 are clear, and every parameter is read
back from its own bits. -/
theorem configureOutputs_mode2 (inverted : Bool) (trigger structure_ output : Nat) (s : Chip)
    (ht : trigger < 2) (hs : structure_ < 2) (ho : output < 3) :
    writePairs s (configureOutputs inverted trigger structure_ output s)
        = [(REG_MODE2,
            (s.regs REG_MODE2 % 256 &&& 0x20) ||| (inverted.toNat <<< 4) ||| (trigger <<< 3)
              ||| (structure_ <<< 2) ||| output)]
      ∧ ((s.regs REG_MODE2 % 256 &&& 0x20) ||| (inverted.toNat <<< 4) ||| (trigger <<< 3)
            ||| (structure_ <<< 2) ||| output) &&& 0x20 = s.regs REG_MODE2 % 256 &&& 0x20
      ∧ ((s.regs REG_MODE2 % 256 &&& 0x20) ||| (inverted.toNat <<< 4) ||| (trigger <<< 3)
            ||| (structure_ <<< 2) ||| output) &&& 0xC0 = 0
      ∧ (((s.regs REG_MODE2 % 256 &&& 0x20) ||| (inverted.toNat <<< 4) ||| (trigger <<< 3)
            ||| (structure_ <<< 2) ||| output) >>> 4) &&& 0x01 = inverted.toNat
      ∧ (((s.regs REG_MODE2 % 256 &&& 0x20) ||| (inverted.toNat <<< 4) ||| (trigger <<< 3)
            ||| (structure_ <<< 2) ||| output) >>> 3) &&& 0x01 = trigger
      ∧ (((s.regs REG_MODE2 % 256 &&& 0x20) ||| (inverted.toNat <<< 4) ||| (trigger <<< 3)
            ||| (structure_ <<< 2) ||| output) >>> 2) &&& 0x01 = structure_
      ∧ ((s.regs REG_MODE2 % 256 &&& 0x20) ||| (inverted.toNat <<< 4) ||| (trigger <<< 3)
            ||| (structure_ <<< 2) ||| output) &&& 0x03 = output := by
  have hf := mode2_fields inverted.toNat (by cases inverted <;> decide) trigger ht structure_ hs
    output ho (s.regs REG_MODE2 % 256) (Nat.mod_lt _ (by norm_num))
  refine ⟨?_, hf.2⟩
  unfold writePairs
  rw [writesSince_of_eq s _
    [⟨REG_MODE2, (s.regs REG_MODE2 % 256 &&& 0x20) ||| (inverted.toNat <<< 4)
        ||| (trigger <<< 3) ||| (structure_ <<< 2) ||| output, s.regs⟩]
    (by
      simp only [configureOutputs, writeRegister_writes, readRegister_writes,
        readRegister_fst, readRegister_regs]
      rw [show REG_MODE2 % 256 &&& 0x1F = REG_MODE2 from rfl, Nat.mod_eq_of_lt hf.1])]
  rfl

/-- C12, for an inverted, ACK-triggered, totem-pole, high-impedance configuration on a
blank chip. -/
theorem configureOutputs_mode2_witness :
    writePairs blank (configureOutputs true ACK TOTEM_POLE HIGH_Z blank)
      = [(REG_MODE2,
          (blank.regs REG_MODE2 % 256 &&& 0x20) ||| (true.toNat <<< 4) ||| (ACK <<< 3)
            ||| (TOTEM_POLE <<< 2) ||| HIGH_Z)] :=
  (configureOutputs_mode2 true ACK TOTEM_POLE HIGH_Z blank (by decide) (by decide)
    (by decide)).1

set_option maxRecDepth 100000 in
/-- Setting and clearing the sleep bit of a byte. -/
theorem sleep_bit_facts :
    ∀ m < 256,
      (m ||| 0x10) % 256 = m ||| 0x10
        ∧ (m &&& (0xFF ^^^ 0x10)) % 256 = m &&& 0xEF
        ∧ (m ||| 0x10) &&& 0x10 = 0x10
        ∧ (m ||| 0x10) &&& 0xEF = m &&& 0xEF
        ∧ (m &&& 0xEF) &&& 0x10 = 0
        ∧ ((m ||| 0x10) % 256 &&& (0xFF ^^^ 0x10)) % 256 = m &&& 0xEF := by
  decide

/-- C16: for every prior MODE1 byte `m`, `sleep` issues exactly one register write,
MODE1 := `m | 0x10`, and `wakeup` exactly one, MODE1 := `m & 0xEF`; both bytes agree
with `m` outside bit 4, and `sleep` followed by `wakeup` leaves MODE1 = `m & 0xEF`. -/
theorem sleep_wakeup_mode1 (s : Chip) :
    writePairs s (sleep s) = [(REG_MODE1, s.regs REG_MODE1 % 256 ||| 0x10)]
      ∧ writePairs s (wakeup s) = [(REG_MODE1, s.regs REG_MODE1 % 256 &&& 0xEF)]
      ∧ (s.regs REG_MODE1 % 256 ||| 0x10) &&& 0x10 = 0x10
      ∧ (s.regs REG_MODE1 % 256 ||| 0x10) &&& 0xEF = s.regs REG_MODE1 % 256 &&& 0xEF
      ∧ (s.regs REG_MODE1 % 256 &&& 0xEF) &&& 0x10 = 0
      ∧ (wakeup (sleep s)).regs REG_MODE1 = s.regs REG_MODE1 % 256 &&& 0xEF := by
  have hf := sleep_bit_facts (s.regs REG_MODE1 % 256) (Nat.mod_lt _ (by norm_num))
  have h0 : REG_MODE1 % 256 &&& 0x1F = REG_MODE1 := rfl
  refine ⟨?_, ?_, hf.2.2.1, hf.2.2.2.1, hf.2.2.2.2.1, ?_⟩
  · unfold writePairs
    rw [writesSince_of_eq s _ [⟨REG_MODE1, s.regs REG_MODE1 % 256 ||| 0x10, s.regs⟩]
      (by
        simp only [sleep, writeRegister_writes, readRegister_writes, readRegister_fst,
          readRegister_regs]
        rw [h0, hf.1])]
    rfl
  · unfold writePairs
    rw [writesSince_of_eq s _ [⟨REG_MODE1, s.regs REG_MODE1 % 256 &&& 0xEF, s.regs⟩]
      (by
        simp only [wakeup, writeRegister_writes, readRegister_writes, readRegister_fst,
          readRegister_regs]
        rw [h0, hf.2.1])]
    rfl
  · simp only [wakeup, sleep, writeRegister_regs, readRegister_fst, readRegister_regs, h0,
      if_true, Nat.mod_mod]
    exact hf.2.2.2.2.2

/-- C17: `reset` logs exactly one transmission, to the fixed address 0x03 whatever the
address of the chip, carrying the bytes 0xA5 then 0x5A, touches no register, and
returns `true` if and only if the status of `endTransmission` is not 0. -/
theorem reset_broadcast (status : Nat) (s : Chip) :
    callsSince s (reset status s).2
        = [Call.beginTransmission 0x03, Call.write 0xA5, Call.write 0x5A,
           Call.endTransmission]
      ∧ writesSince s (reset status s).2 = []
      ∧ (reset status s).2.regs = s.regs
      ∧ ((reset status s).1 = true ↔ status ≠ 0)
      ∧ ((reset status s).1 = false ↔ status = 0) := by
  refine ⟨callsSince_of_eq s _ _ rfl, writesSince_of_eq s _ [] (List.append_nil _).symm, rfl,
    ?_, ?_⟩
  · simp [reset]
  · simp [reset]

/-- C18: for every prior MODE1 value, the calls of `wakeup` are the read of MODE1, the
write of MODE1, and then `delayMicroseconds(500)` as the last call before it returns. -/
theorem wakeup_delay (s : Chip) :
    callsSince s (wakeup s)
      = readCalls s.i2cSlaveAddr REG_MODE1
          ++ writeCalls s.i2cSlaveAddr REG_MODE1 (s.regs REG_MODE1 % 256 &&& 0xEF)
          ++ [Call.delayMicroseconds 500] := by
  have hf := sleep_bit_facts (s.regs REG_MODE1 % 256) (Nat.mod_lt _ (by norm_num))
  have h0 : REG_MODE1 % 256 &&& 0x1F = REG_MODE1 := rfl
  have hw : writeCalls s.i2cSlaveAddr REG_MODE1 (s.regs REG_MODE1 % 256 &&& (0xFF ^^^ 0x10))
      = writeCalls s.i2cSlaveAddr REG_MODE1 (s.regs REG_MODE1 % 256 &&& 0xEF) := by
    unfold writeCalls
    rw [hf.2.1, Nat.mod_eq_of_lt (Nat.lt_of_le_of_lt Nat.and_le_right (by norm_num))]
  exact callsSince_of_eq s _ _ (by
    simp only [wakeup, writeRegister_log, readRegister_log, writeRegister_addr,
      readRegister_addr, readRegister_fst, h0, hw, List.append_assoc])

/-! ## The register writes of the channel operations -/

theorem writePairs_of_eq (s t : Chip) (l : List RegWrite) (h : t.writes = s.writes ++ l) :
    writePairs s t = l.map (fun w => (w.reg, w.value)) := by
  unfold writePairs
  rw [writesSince_of_eq s t l h]

theorem writePairs_setBrightness (c v : Nat) (s : Chip) (hc : c < 8) :
    writePairs s (setBrightness c v s)
      = if ledoutMode s.regs c = BRIGHTNESS_DIMMING_BLINKING_CONTROL then
          [(REG_PWM0 + c, (if v > 0xFF then 0xFF else v) % 256)]
        else if v < 256 then
          (if ledoutMode s.regs c = BRIGHTNESS_CONTROL then []
           else [(REG_LEDOUT0 + c / 4,
                  insertField (s.regs (REG_LEDOUT0 + c / 4) % 256) c BRIGHTNESS_CONTROL % 256)])
            ++ [(REG_PWM0 + c, v % 256)]
        else if ledoutMode s.regs c = FULLY_ON then []
        else [(REG_LEDOUT0 + c / 4,
               insertField (s.regs (REG_LEDOUT0 + c / 4) % 256) c FULLY_ON % 256)] := by
  by_cases hm : ledoutMode s.regs c = BRIGHTNESS_DIMMING_BLINKING_CONTROL
  · rw [if_pos hm, setBrightness_dimBlink c v s hc hm,
      writePairs_of_eq s _ [⟨REG_PWM0 + c, _, s.regs⟩]
        (by rw [writeRegister_writes, pwm_addr c hc]; rfl)]
    rfl
  · rw [if_neg hm]
    by_cases hv : v < 256
    · rw [if_pos hv, setBrightness_pwm c v s hc hv hm]
      split_ifs with h2
      · rw [writePairs_of_eq s _ [⟨REG_PWM0 + c, _, s.regs⟩]
          (by rw [writeRegister_writes, pwm_addr c hc]; rfl)]
        rfl
      · rw [writePairs_of_eq s _
          [⟨REG_LEDOUT0 + c / 4, _, s.regs⟩,
           ⟨REG_PWM0 + c, _, (putMode c BRIGHTNESS_CONTROL s (afterRead c s)).regs⟩]
          (by rw [writeRegister_writes, putMode, writeRegister_writes, pwm_addr c hc,
                ledout_addr c hc, List.append_assoc]; rfl)]
        rfl
    · rw [if_neg hv, setBrightness_full c v s hc (by omega) hm]
      split_ifs with h1
      · exact writePairs_of_eq s _ [] (by simp [afterRead, readRegister_writes])
      · rw [writePairs_of_eq s _ [⟨REG_LEDOUT0 + c / 4, _, s.regs⟩]
          (by rw [putMode, writeRegister_writes, ledout_addr c hc]; rfl)]
        rfl

theorem writePairs_setEffectEnabled (c : Nat) (e : Bool) (s : Chip) (hc : c < 8) :
    writePairs s (setEffectEnabled c e s)
      = if e = true then
          if ledoutMode s.regs c = FULLY_ON then
            [(REG_PWM0 + c, 0xFF),
             (REG_LEDOUT0 + c / 4,
              insertField (s.regs (REG_LEDOUT0 + c / 4) % 256) c
                BRIGHTNESS_DIMMING_BLINKING_CONTROL % 256)]
          else if ledoutMode s.regs c = BRIGHTNESS_DIMMING_BLINKING_CONTROL then []
          else [(REG_LEDOUT0 + c / 4,
                 insertField (s.regs (REG_LEDOUT0 + c / 4) % 256) c
                   BRIGHTNESS_DIMMING_BLINKING_CONTROL % 256)]
        else if ledoutMode s.regs c = BRIGHTNESS_DIMMING_BLINKING_CONTROL then
          [(REG_LEDOUT0 + c / 4,
            insertField (s.regs (REG_LEDOUT0 + c / 4) % 256) c BRIGHTNESS_CONTROL % 256)]
        else [] := by
  cases e
  · rw [if_neg (by decide), setEffectEnabled_off c s hc]
    split_ifs with h3
    · rw [writePairs_of_eq s _ [⟨REG_LEDOUT0 + c / 4, _, s.regs⟩]
        (by rw [putMode, writeRegister_writes, ledout_addr c hc]; rfl)]
      rfl
    · exact writePairs_of_eq s _ [] (by simp [afterRead, readRegister_writes])
  · rw [if_pos rfl, setEffectEnabled_on c s hc]
    split_ifs with h1 h3
    · rw [writePairs_of_eq s _
        [⟨REG_PWM0 + c, 0xFF, s.regs⟩,
         ⟨REG_LEDOUT0 + c / 4, _, (writeRegister (REG_PWM0 + c) 0xFF (afterRead c s)).regs⟩]
        (by rw [putMode, writeRegister_writes, writeRegister_writes, pwm_addr c hc,
              ledout_addr c hc, List.append_assoc]; rfl)]
      rfl
    · exact writePairs_of_eq s _ [] (by simp [afterRead, readRegister_writes])
    · rw [writePairs_of_eq s _ [⟨REG_LEDOUT0 + c / 4, _, s.regs⟩]
        (by rw [putMode, writeRegister_writes, ledout_addr c hc]; rfl)]
      rfl

theorem regs_setBrightness_other (c v a : Nat) (s : Chip) (hc : c < 8)
    (hl : a ≠ REG_LEDOUT0 + c / 4) (hp : a ≠ REG_PWM0 + c) :
    (setBrightness c v s).regs a = s.regs a := by
  by_cases hm : ledoutMode s.regs c = BRIGHTNESS_DIMMING_BLINKING_CONTROL
  · rw [setBrightness_dimBlink c v s hc hm, writeRegister_regs, pwm_addr c hc, if_neg hp]
    rfl
  · by_cases hv : v < 256
    · rw [setBrightness_pwm c v s hc hv hm, writeRegister_regs, pwm_addr c hc, if_neg hp]
      split_ifs with h2
      · rfl
      · rw [putMode, writeRegister_regs, ledout_addr c hc, if_neg hl]
        rfl
    · rw [setBrightness_full c v s hc (by omega) hm]
      split_ifs with h1
      · rfl
      · rw [putMode, writeRegister_regs, ledout_addr c hc, if_neg hl]
        rfl

theorem regs_setEffectEnabled_other (c a : Nat) (e : Bool) (s : Chip) (hc : c < 8)
    (hl : a ≠ REG_LEDOUT0 + c / 4) (hp : a ≠ REG_PWM0 + c) :
    (setEffectEnabled c e s).regs a = s.regs a := by
  cases e
  · rw [setEffectEnabled_off c s hc]
    split_ifs with h3
    · rw [putMode, writeRegister_regs, ledout_addr c hc, if_neg hl]
      rfl
    · rfl
  · rw [setEffectEnabled_on c s hc]
    split_ifs with h1 h3
    · rw [putMode, writeRegister_regs, ledout_addr c hc, if_neg hl, writeRegister_regs,
        pwm_addr c hc, if_neg hp]
      rfl
    · rfl
    · rw [putMode, writeRegister_regs, ledout_addr c hc, if_neg hl]
      rfl

/-! ## Claims C19 and C20 -/

/-- C19: for a channel `c < 8` and every argument, `setBrightness` and
`setEffectEnabled` write no register other than LEDOUT `0x0C + c / 4` and PWM
`0x02 + c`; every register at another address (the PWM registers of the other
channels, MODE1, MODE2, GRPPWM, GRPFREQ, the address registers) keeps its content, and
the mode of every other channel `k < 8` is unchanged. -/
theorem channel_ops_local (c : Nat) (s : Chip) (hc : c < 8) :
    (∀ v,
        (∀ p ∈ writePairs s (setBrightness c v s),
            p.1 = REG_LEDOUT0 + c / 4 ∨ p.1 = REG_PWM0 + c)
          ∧ (∀ a, a ≠ REG_LEDOUT0 + c / 4 → a ≠ REG_PWM0 + c
              → (setBrightness c v s).regs a = s.regs a)
          ∧ (∀ k < 8, k ≠ c → ledoutMode (setBrightness c v s).regs k = ledoutMode s.regs k))
      ∧ (∀ e,
          (∀ p ∈ writePairs s (setEffectEnabled c e s),
              p.1 = REG_LEDOUT0 + c / 4 ∨ p.1 = REG_PWM0 + c)
            ∧ (∀ a, a ≠ REG_LEDOUT0 + c / 4 → a ≠ REG_PWM0 + c
                → (setEffectEnabled c e s).regs a = s.regs a)
            ∧ (∀ k < 8, k ≠ c
                → ledoutMode (setEffectEnabled c e s).regs k = ledoutMode s.regs k)) := by
  constructor
  · intro v
    refine ⟨?_, fun a hl hp => regs_setBrightness_other c v a s hc hl hp,
      fun k hk hne => mode_setBrightness_other c v k s hk hne⟩
    rw [writePairs_setBrightness c v s hc]
    split_ifs <;> simp
  · intro e
    refine ⟨?_, fun a hl hp => regs_setEffectEnabled_other c a e s hc hl hp,
      fun k hk hne => mode_setEffectEnabled_other c k e s hk hne⟩
    rw [writePairs_setEffectEnabled c e s hc]
    split_ifs <;> simp

/-- C19, on a blank chip: a call on channel 5 leaves MODE1, the PWM register of
channel 4 and the mode of channel 4 (same LEDOUT register) as they were. -/
theorem channel_ops_local_witness :
    (setBrightness 5 77 blank).regs REG_MODE1 = blank.regs REG_MODE1
      ∧ (setEffectEnabled 5 true blank).regs (REG_PWM0 + 4) = blank.regs (REG_PWM0 + 4)
      ∧ ledoutMode (setBrightness 5 77 blank).regs 4 = ledoutMode blank.regs 4 :=
  ⟨((channel_ops_local 5 blank (by decide)).1 77).2.1 REG_MODE1 (by decide) (by decide),
   ((channel_ops_local 5 blank (by decide)).2 true).2.1 (REG_PWM0 + 4) (by decide) (by decide),
   ((channel_ops_local 5 blank (by decide)).1 77).2.2 4 (by decide) (by decide)⟩

/-- C20: for a channel `c < 8` and every value, the mode after `setBrightness c v` is
BrightnessWithDimBlink if and only if it was before, and the call writes the LEDOUT
register of the channel if and only if the mode of the channel changes. -/
theorem setBrightness_keeps_effect (c v : Nat) (s : Chip) (hc : c < 8) :
    (ledoutMode (setBrightness c v s).regs c = BRIGHTNESS_DIMMING_BLINKING_CONTROL
        ↔ ledoutMode s.regs c = BRIGHTNESS_DIMMING_BLINKING_CONTROL)
      ∧ ((∃ p ∈ writePairs s (setBrightness c v s), p.1 = REG_LEDOUT0 + c / 4)
          ↔ ledoutMode (setBrightness c v s).regs c ≠ ledoutMode s.regs c) := by
  have hne : REG_PWM0 + c ≠ REG_LEDOUT0 + c / 4 := by simp only [REG_LEDOUT0, REG_PWM0]; omega
  rw [mode_setBrightness_self c v s hc, writePairs_setBrightness c v s hc]
  by_cases hm : ledoutMode s.regs c = BRIGHTNESS_DIMMING_BLINKING_CONTROL
  · simp [hm, hne]
  · by_cases hv : v < 256
    · by_cases h2 : ledoutMode s.regs c = BRIGHTNESS_CONTROL
      · simp [hm, hv, h2, hne]
      · simp [hm, hv, h2, hne, Ne.symm h2]
    · by_cases h1 : ledoutMode s.regs c = FULLY_ON
      · simp [hm, hv, h1]
      · simp [hm, hv, h1, Ne.symm h1]

/-- C20, at channel 0 of a blank chip with the largest 16-bit value. -/
theorem setBrightness_keeps_effect_witness :
    (ledoutMode (setBrightness 0 65535 blank).regs 0 = BRIGHTNESS_DIMMING_BLINKING_CONTROL
      ↔ ledoutMode blank.regs 0 = BRIGHTNESS_DIMMING_BLINKING_CONTROL) :=
  (setBrightness_keeps_effect 0 65535 blank (by decide)).1

/-! ## The floating-point expressions -/

theorem clamp_eq (v : ℚ) : clamp v 0 255 = min 255 (max 0 v) := by
  unfold clamp
  split_ifs with h1 h2
  · rw [max_eq_right (by linarith), min_eq_left (le_of_lt h1)]
  · rw [max_eq_left (le_of_lt h2), min_eq_right (by norm_num)]
  · rw [max_eq_right (not_lt.mp h2), min_eq_right (not_lt.mp h1)]

theorem clamp_nonneg (v : ℚ) : 0 ≤ clamp v 0 255 := by
  rw [clamp_eq]
  exact le_min (by norm_num) (le_max_left _ _)

theorem clamp_le (v : ℚ) : clamp v 0 255 ≤ 255 := by
  rw [clamp_eq]
  exact min_le_left _ _

theorem clamp_mono (v w : ℚ) (h : v ≤ w) : clamp v 0 255 ≤ clamp w 0 255 := by
  rw [clamp_eq, clamp_eq]
  exact min_le_min le_rfl (max_le_max le_rfl h)

theorem toInt_clamp (v : ℚ) : toInt (clamp v 0 255) = ⌊clamp v 0 255⌋ := by
  unfold toInt
  rw [if_pos (clamp_nonneg v)]

theorem toInt_clamp_nonneg (v : ℚ) : 0 ≤ toInt (clamp v 0 255) := by
  rw [toInt_clamp]
  exact Int.floor_nonneg.mpr (clamp_nonneg v)

theorem toInt_clamp_le (v : ℚ) : toInt (clamp v 0 255) ≤ 255 := by
  rw [toInt_clamp]
  have h : ⌊clamp v 0 255⌋ ≤ ⌊(255 : ℚ)⌋ := Int.floor_mono (clamp_le v)
  rwa [show ⌊(255 : ℚ)⌋ = 255 from Int.floor_intCast 255] at h

theorem toUint8_lt (i : Int) : toUint8 i < 256 := by
  unfold toUint8
  have h1 : 0 ≤ i % 256 := Int.emod_nonneg _ (by norm_num)
  have h2 : i % 256 < 256 := Int.emod_lt_of_pos _ (by norm_num)
  omega

theorem toUint8_cast (i : Int) (h0 : 0 ≤ i) (h1 : i ≤ 255) : ((toUint8 i : Nat) : Int) = i := by
  unfold toUint8
  rw [Int.emod_eq_of_lt h0 (by omega), Int.toNat_of_nonneg h0]

theorem groupPwm_cast (ratio : ℚ) :
    ((toUint8 (groupPwmInt ratio) : Nat) : Int) = ⌊min 255 (max 0 (ratio * 256))⌋ := by
  unfold groupPwmInt
  rw [toUint8_cast _ (toInt_clamp_nonneg _) (toInt_clamp_le _), toInt_clamp, clamp_eq]

theorem groupPwm_half : toUint8 (groupPwmInt (1 / 2)) = 128 := by
  have h := groupPwm_cast (1 / 2)
  rw [show ⌊min (255 : ℚ) (max 0 (1 / 2 * 256))⌋ = 128 by
    rw [Int.floor_eq_iff]; norm_num] at h
  exact_mod_cast h

theorem groupPwm_tenth (d : ℚ) (hd : d = 1 / 10 ∨ d = floatTenth) :
    toUint8 (groupPwmInt d) = 25 := by
  have h := groupPwm_cast d
  rw [show ⌊min (255 : ℚ) (max 0 (d * 256))⌋ = 25 by
    rw [Int.floor_eq_iff]
    rcases hd with hd | hd <;> subst hd <;> norm_num [floatTenth]] at h
  exact_mod_cast h

/-! ## Claims C13, C14, C15 -/

set_option maxRecDepth 100000 in
/-- Clearing and setting bit 5 of a byte. -/
theorem mode2_bit5_facts :
    ∀ m < 256,
      (m &&& (0xFF ^^^ 0x20)) % 256 = m &&& 0xDF
        ∧ (m &&& 0xDF) &&& 0x20 = 0
        ∧ (m &&& 0xDF) ||| (m &&& 0x20) = m
        ∧ (m ||| 0x20) % 256 = m ||| 0x20
        ∧ (m ||| 0x20) &&& 0x20 = 0x20
        ∧ (m ||| 0x20) &&& 0xDF = m &&& 0xDF := by
  decide

theorem writePairs_configureDimmingEffect (grppwm : Nat) (s : Chip) :
    writePairs s (configureDimmingEffect grppwm s)
      = [(REG_MODE2, s.regs REG_MODE2 % 256 &&& 0xDF), (REG_GRPPWM, grppwm % 256)] := by
  have hf := mode2_bit5_facts (s.regs REG_MODE2 % 256) (Nat.mod_lt _ (by norm_num))
  rw [writePairs_of_eq s _
    [⟨REG_MODE2, s.regs REG_MODE2 % 256 &&& 0xDF, s.regs⟩,
     ⟨REG_GRPPWM, grppwm % 256,
      (writeRegister REG_MODE2 (s.regs REG_MODE2 % 256 &&& (0xFF ^^^ 0x20))
        (readRegister REG_MODE2 s).2).regs⟩]
    (by
      simp only [configureDimmingEffect, setGroupPwm, writeRegister_writes,
        readRegister_writes, readRegister_fst, readRegister_regs, List.append_assoc]
      rw [show REG_MODE2 % 256 &&& 0x1F = REG_MODE2 from rfl,
        show REG_GRPPWM % 256 &&& 0x1F = REG_GRPPWM from rfl, hf.1]
      rfl)]
  rfl

theorem writePairs_configureBlinkingEffect (grppwm grpfreq : Nat) (s : Chip) :
    writePairs s (configureBlinkingEffect grppwm grpfreq s)
      = [(REG_MODE2, s.regs REG_MODE2 % 256 ||| 0x20), (REG_GRPPWM, grppwm % 256),
         (REG_GRPFREQ, grpfreq % 256)] := by
  have hf := mode2_bit5_facts (s.regs REG_MODE2 % 256) (Nat.mod_lt _ (by norm_num))
  rw [writePairs_of_eq s _
    [⟨REG_MODE2, s.regs REG_MODE2 % 256 ||| 0x20, s.regs⟩,
     ⟨REG_GRPPWM, grppwm % 256,
      (writeRegister REG_MODE2 (s.regs REG_MODE2 % 256 ||| 0x20)
        (readRegister REG_MODE2 s).2).regs⟩,
     ⟨REG_GRPFREQ, grpfreq % 256,
      (writeRegister REG_GRPPWM grppwm
        (writeRegister REG_MODE2 (s.regs REG_MODE2 % 256 ||| 0x20)
          (readRegister REG_MODE2 s).2)).regs⟩]
    (by
      simp only [configureBlinkingEffect, setGroupPwm, writeRegister_writes,
        readRegister_writes, readRegister_fst, readRegister_regs, List.append_assoc]
      rw [show REG_MODE2 % 256 &&& 0x1F = REG_MODE2 from rfl,
        show REG_GRPPWM % 256 &&& 0x1F = REG_GRPPWM from rfl,
        show REG_GRPFREQ % 256 &&& 0x1F = REG_GRPFREQ from rfl, hf.2.2.2.1]
      rfl)]
  rfl

/-- C13 as stated fails: for the ratio `7/1024` (a `float`), `ratio * 256 = 1.75`, the
source writes GRPPWM = 1, and the rounded value of the specification is 2. -/
theorem dimming_ratio_not_rounded :
    writePairs blank (configureDimmingEffectFloat (7 / 1024) blank)
        = [(REG_MODE2, 0), (REG_GRPPWM, 1)]
      ∧ specGroupPwm (7 / 1024) = 2 := by
  constructor
  · have h := groupPwm_cast (7 / 1024)
    rw [show ⌊min (255 : ℚ) (max 0 (7 / 1024 * 256))⌋ = 1 by
      rw [Int.floor_eq_iff]; norm_num] at h
    have h1 : toUint8 (groupPwmInt (7 / 1024)) = 1 := by exact_mod_cast h
    rw [configureDimmingEffectFloat, writePairs_configureDimmingEffect, h1]
    rfl
  · unfold specGroupPwm clamp
    rw [if_neg (by norm_num), if_neg (by norm_num), round_eq,
      show ⌊(7 / 1024 * 256 + 1 / 2 : ℚ)⌋ = 2 by rw [Int.floor_eq_iff]; norm_num]
    rfl

/-- C13, amended: for every ratio, `configureDimmingEffect(ratio)` writes MODE2 with bit
5 cleared and the other bits as read, then GRPPWM = the integer part of `ratio * 256`
clamped to `[0, 255]` (truncated, not rounded); for the ratio 0.5 this is 128. -/
theorem configureDimmingEffect_truncates (ratio : ℚ) (s : Chip) :
    writePairs s (configureDimmingEffectFloat ratio s)
        = [(REG_MODE2, s.regs REG_MODE2 % 256 &&& 0xDF),
           (REG_GRPPWM, toUint8 (groupPwmInt ratio))]
      ∧ (s.regs REG_MODE2 % 256 &&& 0xDF) &&& 0x20 = 0
      ∧ (s.regs REG_MODE2 % 256 &&& 0xDF) ||| (s.regs REG_MODE2 % 256 &&& 0x20)
          = s.regs REG_MODE2 % 256
      ∧ ((toUint8 (groupPwmInt ratio) : Nat) : Int) = ⌊min 255 (max 0 (ratio * 256))⌋
      ∧ writePairs s (configureDimmingEffectFloat (1 / 2) s)
          = [(REG_MODE2, s.regs REG_MODE2 % 256 &&& 0xDF), (REG_GRPPWM, 128)] := by
  have hf := mode2_bit5_facts (s.regs REG_MODE2 % 256) (Nat.mod_lt _ (by norm_num))
  refine ⟨?_, hf.2.1, hf.2.2.1, groupPwm_cast ratio, ?_⟩
  · rw [configureDimmingEffectFloat, writePairs_configureDimmingEffect,
      Nat.mod_eq_of_lt (toUint8_lt _)]
  · rw [configureDimmingEffectFloat, writePairs_configureDimmingEffect, groupPwm_half]

/-- C14 as stated fails: `configureBlinkingEffect(1.0, 0.1)`, with 0.1 the nearest
`float`, writes GRPPWM = 25 (the integer part of 25.6), not 26. -/
theorem blinking_duty_not_rounded :
    writePairs blank (configureBlinkingEffectFloat id id 1 floatTenth blank)
        = [(REG_MODE2, 0x20), (REG_GRPPWM, 25), (REG_GRPFREQ, 23)]
      ∧ (REG_GRPPWM, 26) ∉ writePairs blank (configureBlinkingEffectFloat id id 1 floatTenth blank) := by
  have hfreq : toUint8 (groupFreqInt id id 1) = 23 := by
    have h : groupFreqInt id id 1 = 23 := by
      unfold groupFreqInt
      rw [toInt_clamp, clamp_eq, Int.floor_eq_iff]
      norm_num
    rw [h]; rfl
  have hw : writePairs blank (configureBlinkingEffectFloat id id 1 floatTenth blank)
      = [(REG_MODE2, 0x20), (REG_GRPPWM, 25), (REG_GRPFREQ, 23)] := by
    rw [configureBlinkingEffectFloat, writePairs_configureBlinkingEffect,
      groupPwm_tenth floatTenth (Or.inr rfl), hfreq]
    rfl
  refine ⟨hw, ?_⟩
  rw [hw]
  decide

/-- C14, amended: `configureBlinkingEffect(1.0, 0.1)` writes MODE2 with bit 5 set and
the other bits as read, GRPPWM = 25, the integer part of `0.1 * 256 = 25.6` (for the
decimal 0.1 and for the nearest `float` alike), and GRPFREQ = `24 * 1.0 - 1` = 23, for
every rounding that is exact on 23 and 24. -/
theorem configureBlinkingEffect_one_tenth (dbl flt : ℚ → ℚ) (d : ℚ) (s : Chip)
    (h24 : dbl 24 = 24) (h23 : dbl 23 = 23) (hf23 : flt 23 = 23)
    (hd : d = 1 / 10 ∨ d = floatTenth) :
    writePairs s (configureBlinkingEffectFloat dbl flt 1 d s)
        = [(REG_MODE2, s.regs REG_MODE2 % 256 ||| 0x20), (REG_GRPPWM, 25), (REG_GRPFREQ, 23)]
      ∧ (s.regs REG_MODE2 % 256 ||| 0x20) &&& 0x20 = 0x20
      ∧ (s.regs REG_MODE2 % 256 ||| 0x20) &&& 0xDF = s.regs REG_MODE2 % 256 &&& 0xDF := by
  have hf := mode2_bit5_facts (s.regs REG_MODE2 % 256) (Nat.mod_lt _ (by norm_num))
  have hfreq : toUint8 (groupFreqInt dbl flt 1) = 23 := by
    have h : groupFreqInt dbl flt 1 = 23 := by
      unfold groupFreqInt
      rw [show (24 : ℚ) * 1 = 24 by norm_num, h24, show (24 : ℚ) - 1 = 23 by norm_num, h23,
        hf23, toInt_clamp, clamp_eq, Int.floor_eq_iff]
      norm_num
    rw [h]; rfl
  refine ⟨?_, hf.2.2.2.2.1, hf.2.2.2.2.2⟩
  rw [configureBlinkingEffectFloat, writePairs_configureBlinkingEffect, groupPwm_tenth d hd,
    hfreq]

/-- C14 amended, with exact arithmetic and the `float` nearest to 0.1 on a blank chip. -/
theorem configureBlinkingEffect_one_tenth_witness :
    writePairs blank (configureBlinkingEffectFloat id id 1 floatTenth blank)
      = [(REG_MODE2, blank.regs REG_MODE2 % 256 ||| 0x20), (REG_GRPPWM, 25),
         (REG_GRPFREQ, 23)] :=
  (configureBlinkingEffect_one_tenth id id floatTenth blank rfl rfl rfl (Or.inr rfl)).1

theorem groupFreq_nonneg (dbl flt : ℚ → ℚ) (p : ℚ) : 0 ≤ groupFreqInt dbl flt p :=
  toInt_clamp_nonneg _

theorem groupFreq_le (dbl flt : ℚ → ℚ) (p : ℚ) : groupFreqInt dbl flt p ≤ 255 :=
  toInt_clamp_le _

/-- C15: for every period `p` and every monotone rounding that is exact on 0, 1, 255
and 256, `configureBlinkingEffect(p, d)` always writes GRPFREQ, the byte is in
`0..255`, it is 0 whenever `24 * p - 1 ≤ 0`, it is 255 whenever `24 * p - 1 ≥ 255`, and
it is non-decreasing in `p`. -/
theorem groupFreq_clamped (dbl flt : ℚ → ℚ) (hdm : Monotone dbl) (hfm : Monotone flt)
    (hd0 : dbl 0 = 0) (hd1 : dbl 1 = 1) (hd255 : dbl 255 = 255) (hd256 : dbl 256 = 256)
    (hf0 : flt 0 = 0) (hf255 : flt 255 = 255) :
    (∀ p d s, writePairs s (configureBlinkingEffectFloat dbl flt p d s)
        = [(REG_MODE2, s.regs REG_MODE2 % 256 ||| 0x20),
           (REG_GRPPWM, toUint8 (groupPwmInt d)),
           (REG_GRPFREQ, toUint8 (groupFreqInt dbl flt p))])
      ∧ (∀ p, toUint8 (groupFreqInt dbl flt p) ≤ 255)
      ∧ (∀ p, 24 * p - 1 ≤ 0 → toUint8 (groupFreqInt dbl flt p) = 0)
      ∧ (∀ p, 255 ≤ 24 * p - 1 → toUint8 (groupFreqInt dbl flt p) = 255)
      ∧ (∀ p q, p ≤ q
          → toUint8 (groupFreqInt dbl flt p) ≤ toUint8 (groupFreqInt dbl flt q)) := by
  have hcast : ∀ p, ((toUint8 (groupFreqInt dbl flt p) : Nat) : Int) = groupFreqInt dbl flt p :=
    fun p => toUint8_cast _ (groupFreq_nonneg dbl flt p) (groupFreq_le dbl flt p)
  refine ⟨?_, ?_, ?_, ?_, ?_⟩
  · intro p d s
    rw [configureBlinkingEffectFloat, writePairs_configureBlinkingEffect,
      Nat.mod_eq_of_lt (toUint8_lt _), Nat.mod_eq_of_lt (toUint8_lt _)]
  · intro p
    have h := toUint8_lt (groupFreqInt dbl flt p)
    omega
  · intro p hp
    have h1 : dbl (24 * p) ≤ 1 := by
      have := hdm (show 24 * p ≤ 1 by linarith)
      rwa [hd1] at this
    have h2 : dbl (dbl (24 * p) - 1) ≤ 0 := by
      have := hdm (show dbl (24 * p) - 1 ≤ 0 by linarith)
      rwa [hd0] at this
    have h3 : flt (dbl (dbl (24 * p) - 1)) ≤ 0 := by
      have := hfm h2
      rwa [hf0] at this
    have h4 : groupFreqInt dbl flt p = 0 := by
      unfold groupFreqInt
      rw [toInt_clamp, clamp_eq, max_eq_left h3, min_eq_right (by norm_num)]
      exact Int.floor_zero
    rw [h4]
    rfl
  · intro p hp
    have h1 : 256 ≤ dbl (24 * p) := by
      have := hdm (show (256 : ℚ) ≤ 24 * p by linarith)
      rwa [hd256] at this
    have h2 : 255 ≤ dbl (dbl (24 * p) - 1) := by
      have := hdm (show (255 : ℚ) ≤ dbl (24 * p) - 1 by linarith)
      rwa [hd255] at this
    have h3 : 255 ≤ flt (dbl (dbl (24 * p) - 1)) := by
      have := hfm h2
      rwa [hf255] at this
    have h4 : groupFreqInt dbl flt p = 255 := by
      unfold groupFreqInt
      rw [toInt_clamp, clamp_eq, max_eq_right (by linarith), min_eq_left h3]
      exact Int.floor_intCast 255
    rw [h4]
    rfl
  · intro p q hpq
    have h1 : flt (dbl (dbl (24 * p) - 1)) ≤ flt (dbl (dbl (24 * q) - 1)) :=
      hfm (hdm (sub_le_sub_right (hdm (by linarith)) 1))
    have h2 : groupFreqInt dbl flt p ≤ groupFreqInt dbl flt q := by
      unfold groupFreqInt
      rw [toInt_clamp, toInt_clamp]
      exact Int.floor_mono (clamp_mono _ _ h1)
    have h3 := hcast p
    have h4 := hcast q
    omega

/-- C15, with exact arithmetic: a period of 0 gives GRPFREQ = 0 and a period of 1000
seconds gives GRPFREQ = 255. -/
theorem groupFreq_clamped_witness :
    toUint8 (groupFreqInt id id 0) = 0 ∧ toUint8 (groupFreqInt id id 1000) = 255 :=
  ⟨(groupFreq_clamped id id monotone_id monotone_id rfl rfl rfl rfl rfl rfl).2.2.1 0
      (by norm_num),
   (groupFreq_clamped id id monotone_id monotone_id rfl rfl rfl rfl rfl rfl).2.2.2.1 1000
      (by norm_num)⟩

end Pca9634
